import Mathlib

/-!
Verification model of the pico-js simulation core (`src/game/Game.ts` and the
`systems/` and `entities/` modules).  Numbers are modelled as rationals;
JavaScript `Math.round` is round-half-up, `Math.min`/`Math.max` are `min`/`max`.
JSON values are modelled by an inductive `Json` type; `JSON.parse` of a level
string either fails (modelled as `none`) or yields such a value, and
`JSON.stringify` is a deterministic function of the value, so equal `Json`
values serialize to equal strings.
-/

namespace PicoJS

/-- JavaScript `Math.round`: round half toward positive infinity. -/
def jround (q : ℚ) : ℚ := ((⌊q + 1/2⌋ : ℤ) : ℚ)

/-- `GRID_SIZE` from Game.ts. -/
def GRID_SIZE : ℚ := 20

/-- `snap(value) = Math.round(value / GRID_SIZE) * GRID_SIZE` from Game.ts. -/
def snap (v : ℚ) : ℚ := jround (v / GRID_SIZE) * GRID_SIZE

/-- `Math.max(lo, Math.min(hi, v))`, the clamp pattern used throughout Game.ts. -/
def clampQ (lo hi v : ℚ) : ℚ := max lo (min hi v)

/-- `CAMERA_SIZE` from Game.ts; the canvas is set to this size in `initGame`. -/
def cameraWidth : ℚ := 960
def cameraHeight : ℚ := 540

/-- JSON values, the result of a successful `JSON.parse`. -/
inductive Json where
  | null : Json
  | bool (b : Bool) : Json
  | num (q : ℚ) : Json
  | str (s : String) : Json
  | arr (items : List Json) : Json
  | obj (fields : List (String × Json)) : Json

/-- Property lookup on the field list of a parsed JSON object
(`undefined`, i.e. a missing field, is `none`). -/
def lookupField : List (String × Json) → String → Option Json
  | [], _ => none
  | (k, v) :: rest, key => if k = key then some v else lookupField rest key

/-- `value.key` property access: `none` models `undefined`. -/
def Json.getField : Json → String → Option Json
  | .obj fields, key => lookupField fields key
  | _, _ => none

/-- JavaScript truthiness of a JSON value (`Boolean(v)`). -/
def Json.truthy : Json → Bool
  | .null => false
  | .bool b => b
  | .num q => q != 0
  | .str s => s != ""
  | .arr _ => true
  | .obj _ => true

/-- `v === null || v === undefined` for an optional property value. -/
def isNullish : Option Json → Bool
  | none => true
  | some .null => true
  | some _ => false

/-- `LevelRect`: axis-aligned rectangle `{x, y, w, h}` (Game.ts). -/
structure LevelRect where
  x : ℚ
  y : ℚ
  w : ℚ
  h : ℚ
deriving DecidableEq, Repr

/-- A 2-D point `{x, y}`. -/
structure PointQ where
  x : ℚ
  y : ℚ
deriving DecidableEq, Repr

/-- `LevelConfig {width, height}` (Game.ts). -/
structure LevelConfig where
  width : ℚ
  height : ℚ
deriving DecidableEq, Repr

/-- A stored block definition: `LevelRect & { required?: number; allowedPlayer?: number }`. -/
structure BlockDef where
  x : ℚ
  y : ℚ
  w : ℚ
  h : ℚ
  required : Option ℚ := none
  allowedPlayer : Option ℚ := none
deriving DecidableEq, Repr

/-- `BridgeDef` from Game.ts. -/
structure BridgeDef where
  x : ℚ
  y : ℚ
  w : ℚ
  h : ℚ
  id : ℚ
  dx : ℚ
  dy : ℚ
  distance : ℚ
  permanent : Bool
  requiredPlayers : Option ℚ := none
deriving DecidableEq, Repr

/-- `ButtonDef` from Game.ts (`targetBridgeId` is a nullable bridge id). -/
structure ButtonDef where
  x : ℚ
  y : ℚ
  w : ℚ
  h : ℚ
  id : ℚ
  targetBridgeId : Option ℚ
deriving DecidableEq, Repr

/-- `LevelState`, the serializable level description (Game.ts). -/
structure LevelState where
  config : LevelConfig
  platforms : List LevelRect
  door : Option LevelRect
  spawn : Option PointQ
  key : Option PointQ
  blocks : List BlockDef
  bridges : List BridgeDef
  buttons : List ButtonDef
  spikes : List LevelRect
deriving DecidableEq, Repr

/-- `parseRect` from `parseLevelState`: the four fields must be numbers and
the sizes strictly positive. -/
def parseRect (j : Json) : Option LevelRect :=
  match j with
  | .obj _ =>
    match j.getField "x", j.getField "y", j.getField "w", j.getField "h" with
    | some (.num x), some (.num y), some (.num w), some (.num h) =>
      if w ≤ 0 ∨ h ≤ 0 then none else some ⟨x, y, w, h⟩
    | _, _, _, _ => none
  | _ => none

/-- The `for … of` loops of `parseLevelState` that bail out with `null`
on the first bad element. -/
def parseList {α : Type} (f : Json → Option α) : List Json → Option (List α)
  | [] => some []
  | j :: rest =>
    match f j with
    | none => none
    | some a => (parseList f rest).map (a :: ·)

/-- `typeof field === 'number'` guard of the block rule fields: a numeric
field contributes one definition built from its value, anything else none. -/
def ruleField (mk : ℚ → BlockDef) : Option Json → List BlockDef
  | some (.num q) => [mk q]
  | _ => []

/-- `{...rect, allowedPlayer: clamp(round(value))}` of the block loop. -/
def mkAllowedDef (r : LevelRect) (a : ℚ) : BlockDef :=
  { x := r.x, y := r.y, w := r.w, h := r.h,
    allowedPlayer := some (clampQ 0 3 (jround a)) }

/-- `{...rect, required: clamp(round(value))}` of the block loop. -/
def mkRequiredDef (r : LevelRect) (q : ℚ) : BlockDef :=
  { x := r.x, y := r.y, w := r.w, h := r.h,
    required := some (clampQ 1 4 (jround q)) }

/-- The definitions pushed for one block item (`parseLevelState` lines
1742–1757): one per numeric rule field present — an item carrying both
numeric fields pushes two definitions — defaulting to `required = 2` when
neither is. -/
def blockItemDefs (item : Json) (r : LevelRect) : List BlockDef :=
  match ruleField (mkAllowedDef r) (item.getField "allowedPlayer") ++
        ruleField (mkRequiredDef r) (item.getField "required") with
  | [] => [{ x := r.x, y := r.y, w := r.w, h := r.h, required := some 2 }]
  | l => l

/-- The block items loop of `parseLevelState`. -/
def parseBlockItems : List Json → Option (List BlockDef)
  | [] => some []
  | item :: rest =>
    match parseRect item with
    | none => none
    | some r => (parseBlockItems rest).map (blockItemDefs item r ++ ·)

/-- The bridge items loop of `parseLevelState`. -/
def parseBridgeItem (item : Json) : Option BridgeDef :=
  match parseRect item with
  | none => none
  | some r =>
    match item.getField "id", item.getField "dx", item.getField "dy",
          item.getField "distance" with
    | some (.num idv), some (.num dxv), some (.num dyv), some (.num distv) =>
      let i := jround idv
      let dx := jround dxv
      let dy := jround dyv
      if |dx| + |dy| ≠ 1 then none
      else
        let distance := max 0 (jround distv)
        let permanent :=
          match item.getField "permanent" with
          | none => false
          | some v => v.truthy
        let requiredPlayers : Option ℚ :=
          match item.getField "requiredPlayers" with
          | some (.num v) => some (clampQ 1 4 (jround v))
          | _ => none
        some { x := r.x, y := r.y, w := r.w, h := r.h, id := i, dx := dx, dy := dy,
               distance := distance, permanent := permanent,
               requiredPlayers := requiredPlayers }
    | _, _, _, _ => none

/-- The button items loop of `parseLevelState`: `id` must be a number and
`targetBridgeId` must be absent, `null`, or a number — there is no check that
the target bridge exists. -/
def parseButtonItem (item : Json) : Option ButtonDef :=
  match parseRect item with
  | none => none
  | some r =>
    match item.getField "id" with
    | some (.num idv) =>
      match item.getField "targetBridgeId" with
      | none => some { x := r.x, y := r.y, w := r.w, h := r.h,
                       id := jround idv, targetBridgeId := none }
      | some .null => some { x := r.x, y := r.y, w := r.w, h := r.h,
                             id := jround idv, targetBridgeId := none }
      | some (.num t) => some { x := r.x, y := r.y, w := r.w, h := r.h,
                                id := jround idv, targetBridgeId := some (jround t) }
      | some _ => none
    | _ => none

/-- An optional array-valued property: nullish means the empty list,
a non-array value rejects the whole blob. -/
def parseOptArray {α : Type} (f : List Json → Option (List α)) :
    Option Json → Option (List α)
  | none => some []
  | some .null => some []
  | some (.arr items) => f items
  | some _ => none

/-- The `config` section of `parseLevelState`: a nullish field keeps the
current module-level config, otherwise both dimensions must be positive
numbers. -/
def parseConfigField (cfg : LevelConfig) (input : Json) : Option LevelConfig :=
  if isNullish (input.getField "config") then some cfg
  else
    match input.getField "config" with
    | some cjson =>
      match cjson.getField "width", cjson.getField "height" with
      | some (.num w), some (.num h) =>
        if w ≤ 0 ∨ h ≤ 0 then none else some ⟨w, h⟩
      | _, _ => none
    | none => none

/-- The `door` section of `parseLevelState`. -/
def parseDoorField (input : Json) : Option (Option LevelRect) :=
  if isNullish (input.getField "door") then some none
  else
    match input.getField "door" with
    | some dj => (parseRect dj).map some
    | none => none

/-- The `spawn` / `key` sections of `parseLevelState`: a nullish field is an
absent point, otherwise both coordinates must be numbers. -/
def parsePointField (input : Json) (key : String) : Option (Option PointQ) :=
  if isNullish (input.getField key) then some none
  else
    match input.getField key with
    | some pj =>
      match pj.getField "x", pj.getField "y" with
      | some (.num px), some (.num py) => some (some ⟨px, py⟩)
      | _, _ => none
    | none => none

/-- `parseLevelState` (Game.ts, lines 1657–1822): validates an arbitrary
parsed blob into a `LevelState` or rejects it wholesale.  A bare array is the
legacy "platforms only" form.  `cfg` is the module-level `levelConfig`, used
when the blob carries no `config` field. -/
def parseLevelState (cfg : LevelConfig) (input : Json) : Option LevelState :=
  match input with
  | .arr items =>
    (parseList parseRect items).map fun platforms =>
      { config := cfg, platforms := platforms, door := none, spawn := none,
        key := none, blocks := [], bridges := [], buttons := [], spikes := [] }
  | .obj _ =>
    match input.getField "platforms" with
    | some (.arr platformItems) => do
      let config ← parseConfigField cfg input
      let platforms ← parseList parseRect platformItems
      let door ← parseDoorField input
      let spawn ← parsePointField input "spawn"
      let key ← parsePointField input "key"
      let blocks ← parseOptArray parseBlockItems (input.getField "blocks")
      let bridges ← parseOptArray (parseList parseBridgeItem) (input.getField "bridges")
      let buttons ← parseOptArray (parseList parseButtonItem) (input.getField "buttons")
      let spikes ← parseOptArray (parseList parseRect) (input.getField "spikes")
      some { config := config, platforms := platforms, door := door,
             spawn := spawn, key := key, blocks := blocks,
             bridges := bridges, buttons := buttons, spikes := spikes }
    | _ => none
  | _ => none

/-- A Matter.js rigid body as the game uses it: centre position, velocity,
static flag and axis-aligned extents (players and all level entities are
rectangles; the key is a circle of radius 12 modelled by its bounding box).
Rotation is disabled throughout (`inertia: Infinity`), so angles are omitted. -/
structure Body where
  pos : PointQ
  vel : PointQ
  isStatic : Bool
  w : ℚ
  h : ℚ
deriving DecidableEq, Repr

/-- `body.bounds.min`. -/
def Body.minB (b : Body) : PointQ := ⟨b.pos.x - b.w / 2, b.pos.y - b.h / 2⟩

/-- `body.bounds.max`. -/
def Body.maxB (b : Body) : PointQ := ⟨b.pos.x + b.w / 2, b.pos.y + b.h / 2⟩

/-- An axis-aligned query region, as passed to `Matter.Query.region`. -/
structure Region where
  minx : ℚ
  miny : ℚ
  maxx : ℚ
  maxy : ℚ
deriving DecidableEq, Repr

/-- `Bounds.overlaps` (used by `Matter.Query.region`): inclusive AABB overlap. -/
def regionHits (r : Region) (b : Body) : Bool :=
  r.minx ≤ (b.maxB).x && r.maxx ≥ (b.minB).x && r.maxy ≥ (b.minB).y && r.miny ≤ (b.maxB).y

/-- `Matter.Query.collides` between two rectangular bodies: contact with
positive penetration depth (touching exactly on an edge does not collide). -/
def collidesB (a b : Body) : Bool :=
  (a.minB).x < (b.maxB).x && (b.minB).x < (a.maxB).x &&
  (a.minB).y < (b.maxB).y && (b.minB).y < (a.maxB).y

/-- The static solid body materialized for a platform/bridge/spike rect
(`Bodies.rectangle(r.x + r.w/2, r.y + r.h/2, r.w, r.h, { isStatic: true })`). -/
def staticRectBody (r : LevelRect) : Body :=
  { pos := ⟨r.x + r.w / 2, r.y + r.h / 2⟩, vel := ⟨0, 0⟩, isStatic := true,
    w := r.w, h := r.h }

/-- The dynamic body materialized for a block (not static). -/
def dynamicRectBody (r : LevelRect) : Body :=
  { pos := ⟨r.x + r.w / 2, r.y + r.h / 2⟩, vel := ⟨0, 0⟩, isStatic := false,
    w := r.w, h := r.h }

/-- The key's sensor body: `Bodies.circle(x, y, 12, { isStatic: true, isSensor: true })`. -/
def keyCircleBody (p : PointQ) : Body :=
  { pos := p, vel := ⟨0, 0⟩, isStatic := true, w := 24, h := 24 }

/-- A block together with its body and published pusher count
(the parallel arrays `blockDefs` / `blockBodies` / `blockPusherCounts`). -/
structure BlockRT where
  bdef : BlockDef
  body : Body
  pusherCount : ℕ
deriving DecidableEq, Repr

/-- A bridge with its body and runtime flags (the parallel arrays
`bridgeDefs` / `bridgeBodies` / `bridgeActivated` / `bridgeLatched` /
`bridgeHomeCenters` / `bridgeCarryX`). -/
structure BridgeRT where
  bdef : BridgeDef
  body : Body
  activated : Bool
  latched : Bool
  home : PointQ
  carryX : ℚ
deriving DecidableEq, Repr

/-- A button with its sensor body and `pressed` flag. -/
structure ButtonRT where
  bdef : ButtonDef
  body : Body
  pressed : Bool
deriving DecidableEq, Repr

/-- A joined player: its 40×40 body and the raw horizontal input axis
(`Player.moveAxisX`). -/
structure PlayerRT where
  body : Body
  moveAxisX : ℚ
deriving DecidableEq, Repr

/-- The module-level mutable level/game state of Game.ts that the claims are
about.  `players` is the four-slot `playerSlots` array; `boundaries` are the
four `'ground'`-labelled walls built by `rebuildBounds`. -/
structure GameState where
  levelConfig : LevelConfig
  levelRects : List LevelRect
  doorRect : Option LevelRect
  doorBody : Option Body
  spawnPoint : Option PointQ
  keyPoint : Option PointQ
  keyBody : Option Body
  keyCarrierSlot : Option (Fin 4)
  doorUnlocked : Bool
  blocks : List BlockRT
  bridges : List BridgeRT
  buttons : List ButtonRT
  spikes : List LevelRect
  spikeBodies : List Body
  boundaries : List Body
  players : Fin 4 → Option PlayerRT
  nextEntityId : ℚ
  levelCompleted : Bool
  completionFrames : ℕ
deriving DecidableEq

/-- The four `'ground'` boundary bodies built by `rebuildBounds` from the
level config (wall thickness 60, ground thickness 40). -/
def rebuildBounds (cfg : LevelConfig) : List Body :=
  let w := cfg.width
  let h := cfg.height
  [ { pos := ⟨w / 2, h - 20⟩, vel := ⟨0, 0⟩, isStatic := true, w := w + 10, h := 40 },
    { pos := ⟨10, h / 2⟩, vel := ⟨0, 0⟩, isStatic := true, w := 60, h := h },
    { pos := ⟨w - 10, h / 2⟩, vel := ⟨0, 0⟩, isStatic := true, w := 60, h := h },
    { pos := ⟨w / 2, 10⟩, vel := ⟨0, 0⟩, isStatic := true, w := w + 10, h := 60 } ]

/-- `ensureSpawn` (entities/spawn): default spawn point from the level config. -/
def ensureSpawn (spawnPoint : Option PointQ) (cfg : LevelConfig) : PointQ :=
  match spawnPoint with
  | some p => p
  | none => ⟨snap 80, snap (cfg.height - 140)⟩

/-- `getSpawnForSlot` (entities/spawn): spawn offset for a player slot.
The fallback base uses the canvas height (the canvas is `CAMERA_SIZE`). -/
def getSpawnForSlot (slot : ℕ) (spawnPoint : Option PointQ) : PointQ :=
  let base := match spawnPoint with
    | some p => p
    | none => ⟨snap 80, snap (cameraHeight - 140)⟩
  ⟨base.x + slot * 60, base.y⟩

/-- `ensureDoor` (entities): the default door rect placed when none exists. -/
def defaultDoorRect (cfg : LevelConfig) : LevelRect :=
  ⟨snap (cfg.width - 100), snap (cfg.height - 120), snap 40, snap 80⟩

/-- The block loading step of `loadLevelFromJson` (lines 1540–1558):
clamp the numeric rule fields and store exactly one of them. -/
def loadBlock (b : BlockDef) : BlockRT :=
  let rect : LevelRect := ⟨b.x, b.y, b.w, b.h⟩
  let clamped := b.required.map fun q => clampQ 1 4 (jround q)
  let allowed := b.allowedPlayer.map fun q => clampQ 0 3 (jround q)
  let bdef : BlockDef :=
    match allowed with
    | some a => { x := b.x, y := b.y, w := b.w, h := b.h, allowedPlayer := some a }
    | none => { x := b.x, y := b.y, w := b.w, h := b.h,
                required := some (clamped.getD 2) }
  { bdef := bdef, body := dynamicRectBody rect, pusherCount := 0 }

/-- `x ? x : absent` on an optional numeric field (JS truthiness: 0 is falsy). -/
def truthyOpt (o : Option ℚ) : Option ℚ :=
  match o with
  | some r => if r = 0 then none else some r
  | none => none

/-- The bridge loading step of `loadLevelFromJson` (lines 1571–1598). -/
def loadBridge (br : BridgeDef) : BridgeRT :=
  let rect : LevelRect := ⟨br.x, br.y, br.w, br.h⟩
  let body := staticRectBody rect
  { bdef := { x := br.x, y := br.y, w := br.w, h := br.h,
              id := jround br.id, dx := jround br.dx, dy := jround br.dy,
              distance := snap (max 0 (jround br.distance)),
              permanent := br.permanent,
              requiredPlayers := truthyOpt br.requiredPlayers },
    body := body, activated := false, latched := false,
    home := body.pos, carryX := 0 }

/-- The button loading step of `loadLevelFromJson` (lines 1600–1615):
ids are rounded, the target reference is kept verbatim (no existence check). -/
def loadButton (btn : ButtonDef) : ButtonRT :=
  { bdef := { x := btn.x, y := btn.y, w := btn.w, h := btn.h,
              id := jround btn.id, targetBridgeId := btn.targetBridgeId.map jround },
    body := staticRectBody ⟨btn.x, btn.y, btn.w, btn.h⟩, pressed := false }

/-- The committing tail of `loadLevelFromJson` (lines 1455–1624): clear the
level, rebuild every entity from the validated `LevelState`, recompute
`nextEntityId`, and run the `ensure*` defaults. -/
def applyLoad (next : LevelState) (g : GameState) : GameState :=
  let cfg : LevelConfig := ⟨snap next.config.width, snap next.config.height⟩
  let doorRect0 := next.door
  let spawn0 := next.spawn.map fun p => (⟨snap p.x, snap p.y⟩ : PointQ)
  let keyPoint := next.key.map fun p => (⟨snap p.x, snap p.y⟩ : PointQ)
  let bridges := next.bridges.map loadBridge
  let buttons := next.buttons.map loadButton
  let nextId :=
    (bridges.map (·.bdef.id) ++ buttons.map (·.bdef.id)).foldl
      (fun acc i => max acc (i + 1)) 1
  let doorRect := match doorRect0 with
    | some d => some d
    | none => some (defaultDoorRect cfg)
  { levelConfig := cfg
    levelRects := next.platforms
    doorRect := doorRect
    doorBody := doorRect.map staticRectBody
    spawnPoint := some (ensureSpawn spawn0 cfg)
    keyPoint := keyPoint
    keyBody := keyPoint.map keyCircleBody
    keyCarrierSlot := none
    doorUnlocked := false
    blocks := next.blocks.map loadBlock
    bridges := bridges
    buttons := buttons
    spikes := next.spikes
    spikeBodies := next.spikes.map staticRectBody
    boundaries := rebuildBounds cfg
    players := g.players
    nextEntityId := nextId
    levelCompleted := false
    completionFrames := 0 }

/-- `loadLevelFromJson` (lines 1444–1453 + tail): `none` models a string that
`JSON.parse` rejects; a blob the validator rejects leaves the state untouched. -/
def loadLevelFromJson (input : Option Json) (g : GameState) : GameState :=
  match input with
  | none => g
  | some j =>
    match parseLevelState g.levelConfig j with
    | none => g
    | some next => applyLoad next g

/-- `buildLevelState` (lines 1627–1639): the serializable snapshot of the
current level. -/
def buildLevelState (g : GameState) : LevelState :=
  { config := g.levelConfig
    platforms := g.levelRects
    door := g.doorRect
    spawn := g.spawnPoint
    key := g.keyPoint
    blocks := g.blocks.map (·.bdef)
    bridges := g.bridges.map (·.bdef)
    buttons := g.buttons.map (·.bdef)
    spikes := g.spikes }

/-- The four rect properties, in the insertion order every rect-based
definition object carries (`{x, y, w, h}` first). -/
def rectFields (r : LevelRect) : List (String × Json) :=
  [("x", .num r.x), ("y", .num r.y), ("w", .num r.w), ("h", .num r.h)]

/-- `JSON.stringify` of a plain rect. -/
def rectJson (r : LevelRect) : Json := .obj (rectFields r)

/-- `JSON.stringify` of a point `{x, y}`. -/
def pointJson (p : PointQ) : Json := .obj [("x", .num p.x), ("y", .num p.y)]

/-- A nullable field: JS `null` serializes as JSON `null`. -/
def optJson {α : Type} (f : α → Json) : Option α → Json
  | some a => f a
  | none => .null

/-- A block definition as serialized: the rect plus the single rule field
that is present (an `undefined` field is omitted by `JSON.stringify`). -/
def blockJson (b : BlockDef) : Json :=
  .obj (rectFields ⟨b.x, b.y, b.w, b.h⟩ ++
    (match b.allowedPlayer with
     | some a => [("allowedPlayer", Json.num a)]
     | none => []) ++
    (match b.required with
     | some q => [("required", Json.num q)]
     | none => []))

/-- A bridge definition as serialized. -/
def bridgeJson (br : BridgeDef) : Json :=
  .obj (rectFields ⟨br.x, br.y, br.w, br.h⟩ ++
    [("id", .num br.id), ("dx", .num br.dx), ("dy", .num br.dy),
     ("distance", .num br.distance), ("permanent", .bool br.permanent)] ++
    (match br.requiredPlayers with
     | some r => [("requiredPlayers", Json.num r)]
     | none => []))

/-- A button definition as serialized (`targetBridgeId: null` when absent). -/
def buttonJson (btn : ButtonDef) : Json :=
  .obj (rectFields ⟨btn.x, btn.y, btn.w, btn.h⟩ ++
    [("id", .num btn.id),
     ("targetBridgeId", match btn.targetBridgeId with
                        | some t => Json.num t
                        | none => Json.null)])

/-- `JSON.stringify` of the object built by `exportLevel` / `persistLevel` /
`pushHistorySnapshot`, modelled at the JSON-value level (the stringify step is
a deterministic injection, so value equality captures string equality). -/
def serializeLevelState (l : LevelState) : Json :=
  .obj [("config", .obj [("width", .num l.config.width),
                         ("height", .num l.config.height)]),
        ("platforms", .arr (l.platforms.map rectJson)),
        ("door", optJson rectJson l.door),
        ("spawn", optJson pointJson l.spawn),
        ("key", optJson pointJson l.key),
        ("blocks", .arr (l.blocks.map blockJson)),
        ("bridges", .arr (l.bridges.map bridgeJson)),
        ("buttons", .arr (l.buttons.map buttonJson)),
        ("spikes", .arr (l.spikes.map rectJson))]

/-- `exportLevel` from the `GameApi`: serialize the current level. -/
def exportLevel (g : GameState) : Json := serializeLevelState (buildLevelState g)

/-- A rect with strictly positive sizes (what the validator accepts). -/
def rectPos (r : LevelRect) : Bool := decide (0 < r.w ∧ 0 < r.h)

/-- A point whose coordinates are grid-snapped (as the loader stores them). -/
def pointSnapped (p : PointQ) : Bool := decide (snap p.x = p.x ∧ snap p.y = p.y)

/-- A stored block definition in loader normal form: positive rect and
exactly one rule field, already in its clamped integral range. -/
def blockNormal (b : BlockDef) : Bool :=
  decide (0 < b.w ∧ 0 < b.h) &&
  (match b.required, b.allowedPlayer with
   | some r, none => decide (clampQ 1 4 (jround r) = r)
   | none, some a => decide (clampQ 0 3 (jround a) = a)
   | _, _ => false)

/-- A stored bridge definition in loader normal form: positive rect, integral
id, unit axis direction, snapped non-negative distance, and a clamped weight
threshold when present. -/
def bridgeNormal (br : BridgeDef) : Bool :=
  decide (0 < br.w ∧ 0 < br.h) &&
  decide (jround br.id = br.id ∧ jround br.dx = br.dx ∧ jround br.dy = br.dy) &&
  decide (|br.dx| + |br.dy| = 1) &&
  decide (0 ≤ br.distance ∧ jround br.distance = br.distance ∧
          snap br.distance = br.distance) &&
  (match br.requiredPlayers with
   | none => true
   | some r => decide (clampQ 1 4 (jround r) = r))

/-- A stored button definition in loader normal form. -/
def buttonNormal (btn : ButtonDef) : Bool :=
  decide (0 < btn.w ∧ 0 < btn.h) &&
  decide (jround btn.id = btn.id) &&
  (match btn.targetBridgeId with
   | none => true
   | some t => decide (jround t = t))

/-- Loader normal form of a whole `LevelState`: exactly the shape
`loadLevelFromJson` leaves behind (door and spawn filled in by the `ensure*`
defaults, snapped config/spawn/key, clamped entity fields).  Reloading a
state of this form is the identity on it.  NOT every snapshot the editor
pushes is of this form: erasing the door or the spawn pushes a snapshot with
a null door/spawn, and reloading that snapshot resurrects the defaults via
the `ensure*` tail, changing the level — the undo/redo boundary case of C6. -/
def levelNormal (l : LevelState) : Bool :=
  decide (0 < l.config.width ∧ 0 < l.config.height ∧
          snap l.config.width = l.config.width ∧
          snap l.config.height = l.config.height) &&
  l.platforms.all rectPos &&
  (match l.door with
   | some d => rectPos d
   | none => false) &&
  (match l.spawn with
   | some p => pointSnapped p
   | none => false) &&
  (match l.key with
   | some p => pointSnapped p
   | none => true) &&
  l.blocks.all blockNormal &&
  l.bridges.all bridgeNormal &&
  l.buttons.all buttonNormal &&
  l.spikes.all rectPos

theorem parseRect_extend (r : LevelRect) (extra : List (String × Json))
    (hw : 0 < r.w) (hh : 0 < r.h) :
    parseRect (Json.obj (rectFields r ++ extra)) = some r := by
  show (if r.w ≤ 0 ∨ r.h ≤ 0 then none else some ⟨r.x, r.y, r.w, r.h⟩) = some r
  rw [if_neg]
  push_neg
  exact ⟨hw, hh⟩

theorem parseRect_rectJson (r : LevelRect) (hw : 0 < r.w) (hh : 0 < r.h) :
    parseRect (rectJson r) = some r := by
  show (if r.w ≤ 0 ∨ r.h ≤ 0 then none else some ⟨r.x, r.y, r.w, r.h⟩) = some r
  rw [if_neg]
  push_neg
  exact ⟨hw, hh⟩

theorem parseList_map {α : Type} (f : Json → Option α) (enc : α → Json)
    (l : List α) (h : ∀ a ∈ l, f (enc a) = some a) :
    parseList f (l.map enc) = some l := by
  induction l with
  | nil => rfl
  | cons a t ih =>
    simp only [List.map_cons, parseList, h a (by simp)]
    rw [ih fun x hx => h x (by simp [hx])]
    rfl

theorem parseList_rects (l : List LevelRect) (h : l.all rectPos = true) :
    parseList parseRect (l.map rectJson) = some l := by
  refine parseList_map _ _ _ fun r hr => ?_
  have := of_decide_eq_true ((List.all_eq_true.mp h) r hr)
  exact parseRect_rectJson r this.1 this.2

theorem parseBlockItems_map (l : List BlockDef)
    (hl : ∀ b ∈ l, blockNormal b = true) :
    parseBlockItems (l.map blockJson) = some l := by
  induction l with
  | nil => rfl
  | cons b t ih =>
    have hb := hl b (by simp)
    have ht := ih fun x hx => hl x (by simp [hx])
    obtain ⟨x, y, w, h, req, ap⟩ := b
    match req, ap with
    | some r, none =>
      simp only [blockNormal, Bool.and_eq_true, decide_eq_true_eq] at hb
      simp [blockItemDefs, ruleField, blockJson, Json.getField, lookupField,
        mkRequiredDef, ht, hb.2, parseBlockItems,
        parseRect_extend ⟨x, y, w, h⟩ [("required", Json.num r)] hb.1.1 hb.1.2]
    | none, some a =>
      simp only [blockNormal, Bool.and_eq_true, decide_eq_true_eq] at hb
      simp [blockItemDefs, ruleField, blockJson, Json.getField, lookupField,
        mkAllowedDef, ht, hb.2, parseBlockItems,
        parseRect_extend ⟨x, y, w, h⟩ [("allowedPlayer", Json.num a)] hb.1.1 hb.1.2]
    | some r, some a =>
      simp [blockNormal] at hb
    | none, none =>
      simp [blockNormal] at hb

theorem clampQ_le_left (lo hi v : ℚ) : lo ≤ clampQ lo hi v := by
  simp [clampQ]

theorem parseBridgeItem_roundtrip (br : BridgeDef) (h : bridgeNormal br = true) :
    parseBridgeItem (bridgeJson br) = some br := by
  obtain ⟨x, y, w, hh, i, dx, dy, dist, perm, reqP⟩ := br
  simp only [bridgeNormal, Bool.and_eq_true, decide_eq_true_eq] at h
  obtain ⟨⟨⟨⟨hpos, hround⟩, hunit⟩, hdist⟩, hreq⟩ := h
  have hparse : parseRect (bridgeJson ⟨x, y, w, hh, i, dx, dy, dist, perm, reqP⟩) =
      some ⟨x, y, w, hh⟩ := by
    match reqP with
    | none =>
      simpa [bridgeJson] using
        parseRect_extend ⟨x, y, w, hh⟩ _ hpos.1 hpos.2
    | some rq =>
      simpa [bridgeJson] using
        parseRect_extend ⟨x, y, w, hh⟩ _ hpos.1 hpos.2
  simp only [parseBridgeItem, hparse]
  match reqP with
  | none =>
    simp only [bridgeJson, Json.getField, lookupField]
    simp [hround.1, hround.2.1, hround.2.2, hunit, hdist.2.1,
          max_eq_right hdist.1, Json.truthy]
  | some rq =>
    simp only [bridgeJson, Json.getField, lookupField]
    simp at hreq
    simp [hround.1, hround.2.1, hround.2.2, hunit, hdist.2.1,
          max_eq_right hdist.1, Json.truthy, hreq]

theorem parseButtonItem_roundtrip (btn : ButtonDef) (h : buttonNormal btn = true) :
    parseButtonItem (buttonJson btn) = some btn := by
  obtain ⟨x, y, w, hh, i, tgt⟩ := btn
  simp only [buttonNormal, Bool.and_eq_true, decide_eq_true_eq] at h
  obtain ⟨⟨hpos, hid⟩, htgt⟩ := h
  have hparse : parseRect (buttonJson ⟨x, y, w, hh, i, tgt⟩) =
      some ⟨x, y, w, hh⟩ := by
    match tgt with
    | none => simpa [buttonJson] using parseRect_extend ⟨x, y, w, hh⟩ _ hpos.1 hpos.2
    | some t => simpa [buttonJson] using parseRect_extend ⟨x, y, w, hh⟩ _ hpos.1 hpos.2
  simp only [parseButtonItem, hparse]
  match tgt with
  | none =>
    simp only [buttonJson, Json.getField, lookupField]
    simp [hid]
  | some t =>
    simp only [buttonJson, Json.getField, lookupField]
    simp at htgt
    simp [hid, htgt]

/-- Round trip through the validator: `parseLevelState` applied to the
serialization of a level state in loader normal form accepts it and
reconstructs it exactly (`parse(serialize(state)) == state`). -/
theorem parse_serialize (cfg : LevelConfig) (l : LevelState)
    (h : levelNormal l = true) :
    parseLevelState cfg (serializeLevelState l) = some l := by
  obtain ⟨config, platforms, door, spawn, key, blocks, bridges, buttons, spikes⟩ := l
  simp only [levelNormal, Bool.and_eq_true, decide_eq_true_eq] at h
  obtain ⟨⟨⟨⟨⟨⟨⟨⟨hcfg, hplat⟩, hdoor⟩, hspawn⟩, hkey⟩, hblocks⟩, hbridges⟩,
    hbuttons⟩, hspikes⟩ := h
  have hplat' : parseList parseRect (platforms.map rectJson) = some platforms :=
    parseList_rects _ hplat
  have hblocks' : parseBlockItems (blocks.map blockJson) = some blocks :=
    parseBlockItems_map _ fun b hb => (List.all_eq_true.mp hblocks) b hb
  have hbridges' : parseList parseBridgeItem (bridges.map bridgeJson) = some bridges :=
    parseList_map _ _ _ fun b hb =>
      parseBridgeItem_roundtrip b ((List.all_eq_true.mp hbridges) b hb)
  have hbuttons' : parseList parseButtonItem (buttons.map buttonJson) = some buttons :=
    parseList_map _ _ _ fun b hb =>
      parseButtonItem_roundtrip b ((List.all_eq_true.mp hbuttons) b hb)
  have hspikes' : parseList parseRect (spikes.map rectJson) = some spikes :=
    parseList_rects _ hspikes
  have hdoorval : ∃ d, door = some d ∧ rectPos d = true := by
    match door, hdoor with
    | some d, hd => exact ⟨d, rfl, hd⟩
  obtain ⟨d, rfl, hd⟩ := hdoorval
  have hdpos := of_decide_eq_true hd
  have hspawnval : ∃ p, spawn = some p := by
    match spawn, hspawn with
    | some p, _ => exact ⟨p, rfl⟩
  obtain ⟨sp, rfl⟩ := hspawnval
  have hconf : parseConfigField cfg (serializeLevelState
      ⟨config, platforms, some d, some sp, key, blocks, bridges, buttons, spikes⟩) =
      some config := by
    have e : parseConfigField cfg (serializeLevelState
        ⟨config, platforms, some d, some sp, key, blocks, bridges, buttons, spikes⟩) =
        if config.width ≤ 0 ∨ config.height ≤ 0 then none
        else some ⟨config.width, config.height⟩ := rfl
    rw [e, if_neg (by push_neg; exact ⟨hcfg.1, hcfg.2.1⟩)]
  have hdoorf : parseDoorField (serializeLevelState
      ⟨config, platforms, some d, some sp, key, blocks, bridges, buttons, spikes⟩) =
      some (some d) := by
    have e : parseDoorField (serializeLevelState
        ⟨config, platforms, some d, some sp, key, blocks, bridges, buttons, spikes⟩) =
        (parseRect (rectJson d)).map some := rfl
    rw [e, parseRect_rectJson d hdpos.1 hdpos.2]
    rfl
  have hspawnf : parsePointField (serializeLevelState
      ⟨config, platforms, some d, some sp, key, blocks, bridges, buttons, spikes⟩)
      "spawn" = some (some sp) := rfl
  have hkeyf : parsePointField (serializeLevelState
      ⟨config, platforms, some d, some sp, key, blocks, bridges, buttons, spikes⟩)
      "key" = some key := by
    cases key <;> rfl
  have e : parseLevelState cfg (serializeLevelState
      ⟨config, platforms, some d, some sp, key, blocks, bridges, buttons, spikes⟩) =
      (parseConfigField cfg (serializeLevelState
        ⟨config, platforms, some d, some sp, key, blocks, bridges, buttons,
         spikes⟩)).bind fun c =>
      (parseList parseRect (platforms.map rectJson)).bind fun ps =>
      (parseDoorField (serializeLevelState
        ⟨config, platforms, some d, some sp, key, blocks, bridges, buttons,
         spikes⟩)).bind fun dr =>
      (parsePointField (serializeLevelState
        ⟨config, platforms, some d, some sp, key, blocks, bridges, buttons,
         spikes⟩) "spawn").bind fun spn =>
      (parsePointField (serializeLevelState
        ⟨config, platforms, some d, some sp, key, blocks, bridges, buttons,
         spikes⟩) "key").bind fun ky =>
      (parseBlockItems (blocks.map blockJson)).bind fun bls =>
      (parseList parseBridgeItem (bridges.map bridgeJson)).bind fun brs =>
      (parseList parseButtonItem (buttons.map buttonJson)).bind fun bts =>
      (parseList parseRect (spikes.map rectJson)).bind fun sps =>
      some { config := c, platforms := ps, door := dr, spawn := spn, key := ky,
             blocks := bls, bridges := brs, buttons := bts, spikes := sps } := rfl
  rw [e, hconf, hplat', hdoorf, hspawnf, hkeyf, hblocks', hbridges', hbuttons',
    hspikes']
  rfl

theorem map_self {α : Type} (f : α → α) (l : List α) (h : ∀ a ∈ l, f a = a) :
    l.map f = l := by
  induction l with
  | nil => rfl
  | cons a t ih => simp [h a (by simp), ih fun x hx => h x (by simp [hx])]

theorem loadBlock_bdef (b : BlockDef) (h : blockNormal b = true) :
    (loadBlock b).bdef = b := by
  obtain ⟨x, y, w, hh, req, ap⟩ := b
  match req, ap with
  | some r, none =>
    simp only [blockNormal, Bool.and_eq_true, decide_eq_true_eq] at h
    simp [loadBlock, h.2]
  | none, some a =>
    simp only [blockNormal, Bool.and_eq_true, decide_eq_true_eq] at h
    simp [loadBlock, h.2]
  | some r, some a => simp [blockNormal] at h
  | none, none => simp [blockNormal] at h

theorem loadBridge_bdef (br : BridgeDef) (h : bridgeNormal br = true) :
    (loadBridge br).bdef = br := by
  obtain ⟨x, y, w, hh, i, dx, dy, dist, perm, reqP⟩ := br
  simp only [bridgeNormal, Bool.and_eq_true, decide_eq_true_eq] at h
  obtain ⟨⟨⟨⟨hpos, hround⟩, hunit⟩, hdist⟩, hreq⟩ := h
  have hmax : max 0 (jround dist) = dist := by
    rw [hdist.2.1]; exact max_eq_right hdist.1
  match reqP with
  | none =>
    simp [loadBridge, truthyOpt, hround.1, hround.2.1, hround.2.2, hmax,
      hdist.2.2]
  | some rq =>
    simp only at hreq
    have hq := of_decide_eq_true hreq
    have h1 : (1 : ℚ) ≤ rq := hq ▸ clampQ_le_left 1 4 (jround rq)
    have hne : rq ≠ 0 := by intro h0; rw [h0] at h1; norm_num at h1
    simp [loadBridge, truthyOpt, hround.1, hround.2.1, hround.2.2, hmax,
      hdist.2.2, hne]

theorem loadButton_bdef (btn : ButtonDef) (h : buttonNormal btn = true) :
    (loadButton btn).bdef = btn := by
  obtain ⟨x, y, w, hh, i, tgt⟩ := btn
  simp only [buttonNormal, Bool.and_eq_true, decide_eq_true_eq] at h
  obtain ⟨⟨hpos, hid⟩, htgt⟩ := h
  match tgt with
  | none => simp [loadButton, hid]
  | some t =>
    simp only at htgt
    simp [loadButton, hid, of_decide_eq_true htgt]

/-- Re-exporting right after a load reproduces the loaded snapshot: on a
level state in loader normal form, `applyLoad` stores exactly that state, so
`buildLevelState` (hence `exportLevel`) returns it unchanged. -/
theorem build_applyLoad (l : LevelState) (g : GameState)
    (h : levelNormal l = true) :
    buildLevelState (applyLoad l g) = l := by
  obtain ⟨config, platforms, door, spawn, key, blocks, bridges, buttons, spikes⟩ := l
  simp only [levelNormal, Bool.and_eq_true, decide_eq_true_eq] at h
  obtain ⟨⟨⟨⟨⟨⟨⟨⟨hcfg, hplat⟩, hdoor⟩, hspawn⟩, hkey⟩, hblocks⟩, hbridges⟩,
    hbuttons⟩, hspikes⟩ := h
  have hdoorval : ∃ d, door = some d := by
    match door, hdoor with
    | some d, hd => exact ⟨d, rfl⟩
  obtain ⟨d, rfl⟩ := hdoorval
  have hspawnval : ∃ p, spawn = some p ∧ pointSnapped p = true := by
    match spawn, hspawn with
    | some p, hp => exact ⟨p, rfl, hp⟩
  obtain ⟨sp, rfl, hsp⟩ := hspawnval
  have hsp' := of_decide_eq_true hsp
  have hkey' : key.map (fun p => (⟨snap p.x, snap p.y⟩ : PointQ)) = key := by
    match key, hkey with
    | none, _ => rfl
    | some k, hk =>
      have := of_decide_eq_true (hk : decide (snap k.x = k.x ∧ snap k.y = k.y) = true)
      simp [this.1, this.2]
  simp only [buildLevelState, applyLoad, List.map_map]
  refine LevelState.mk.injEq _ _ _ _ _ _ _ _ _ _ _ _ _ _ _ _ _ _ |>.mpr ?_
  refine ⟨?_, rfl, rfl, ?_, ?_, ?_, ?_, ?_, rfl⟩
  · simp [hcfg.2.2.1, hcfg.2.2.2]
  · simp [ensureSpawn, hsp'.1, hsp'.2]
  · exact hkey'
  · exact map_self _ _ fun b hb =>
      loadBlock_bdef b ((List.all_eq_true.mp hblocks) b hb)
  · exact map_self _ _ fun b hb =>
      loadBridge_bdef b ((List.all_eq_true.mp hbridges) b hb)
  · exact map_self _ _ fun b hb =>
      loadButton_bdef b ((List.all_eq_true.mp hbuttons) b hb)

/-- Raw field reader for a serialized rect: no validation, used only to show
`serializeLevelState` is injective. -/
def unsRect (j : Json) : Option LevelRect :=
  match j.getField "x", j.getField "y", j.getField "w", j.getField "h" with
  | some (.num x), some (.num y), some (.num w), some (.num h) => some ⟨x, y, w, h⟩
  | _, _, _, _ => none

def unsPoint (j : Json) : Option PointQ :=
  match j.getField "x", j.getField "y" with
  | some (.num x), some (.num y) => some ⟨x, y⟩
  | _, _ => none

def unsOpt {α : Type} (f : Json → Option α) : Json → Option (Option α)
  | .null => some none
  | j => (f j).map some

def unsBlock (j : Json) : Option BlockDef :=
  (unsRect j).map fun r =>
    { x := r.x, y := r.y, w := r.w, h := r.h,
      required := match j.getField "required" with
                  | some (.num q) => some q
                  | _ => none,
      allowedPlayer := match j.getField "allowedPlayer" with
                       | some (.num a) => some a
                       | _ => none }

def unsBridge (j : Json) : Option BridgeDef :=
  match unsRect j, j.getField "id", j.getField "dx", j.getField "dy",
        j.getField "distance" with
  | some r, some (.num i), some (.num dx), some (.num dy), some (.num dist) =>
    some { x := r.x, y := r.y, w := r.w, h := r.h, id := i, dx := dx, dy := dy,
           distance := dist,
           permanent := match j.getField "permanent" with
                        | some (.bool p) => p
                        | _ => false,
           requiredPlayers := match j.getField "requiredPlayers" with
                              | some (.num q) => some q
                              | _ => none }
  | _, _, _, _, _ => none

def unsButton (j : Json) : Option ButtonDef :=
  match unsRect j, j.getField "id" with
  | some r, some (.num i) =>
    some { x := r.x, y := r.y, w := r.w, h := r.h, id := i,
           targetBridgeId := match j.getField "targetBridgeId" with
                             | some (.num t) => some t
                             | _ => none }
  | _, _ => none

/-- Raw decoder for serialized level snapshots (no validation): the exact
left inverse of `serializeLevelState`. -/
def unserialize (input : Json) : Option LevelState := do
  let cj ← input.getField "config"
  let config ← match cj.getField "width", cj.getField "height" with
               | some (.num w), some (.num h) => some (⟨w, h⟩ : LevelConfig)
               | _, _ => none
  let platforms ← match input.getField "platforms" with
                  | some (.arr items) => parseList unsRect items
                  | _ => none
  let door ← match input.getField "door" with
             | some dj => unsOpt unsRect dj
             | none => none
  let spawn ← match input.getField "spawn" with
              | some pj => unsOpt unsPoint pj
              | none => none
  let key ← match input.getField "key" with
            | some pj => unsOpt unsPoint pj
            | none => none
  let blocks ← match input.getField "blocks" with
               | some (.arr items) => parseList unsBlock items
               | _ => none
  let bridges ← match input.getField "bridges" with
                | some (.arr items) => parseList unsBridge items
                | _ => none
  let buttons ← match input.getField "buttons" with
                | some (.arr items) => parseList unsButton items
                | _ => none
  let spikes ← match input.getField "spikes" with
               | some (.arr items) => parseList unsRect items
               | _ => none
  some { config := config, platforms := platforms, door := door, spawn := spawn,
         key := key, blocks := blocks, bridges := bridges, buttons := buttons,
         spikes := spikes }

theorem unsBlock_blockJson (b : BlockDef) : unsBlock (blockJson b) = some b := by
  obtain ⟨x, y, w, h, req, ap⟩ := b
  cases req <;> cases ap <;> rfl

theorem unsBridge_bridgeJson (br : BridgeDef) :
    unsBridge (bridgeJson br) = some br := by
  obtain ⟨x, y, w, h, i, dx, dy, dist, perm, reqP⟩ := br
  cases reqP <;> rfl

theorem unsButton_buttonJson (btn : ButtonDef) :
    unsButton (buttonJson btn) = some btn := by
  obtain ⟨x, y, w, h, i, tgt⟩ := btn
  cases tgt <;> rfl

theorem unserialize_serialize (l : LevelState) :
    unserialize (serializeLevelState l) = some l := by
  obtain ⟨config, platforms, door, spawn, key, blocks, bridges, buttons, spikes⟩ := l
  have hplat : parseList unsRect (platforms.map rectJson) = some platforms :=
    parseList_map _ _ _ fun r _ => rfl
  have hblocks : parseList unsBlock (blocks.map blockJson) = some blocks :=
    parseList_map _ _ _ fun b _ => unsBlock_blockJson b
  have hbridges : parseList unsBridge (bridges.map bridgeJson) = some bridges :=
    parseList_map _ _ _ fun b _ => unsBridge_bridgeJson b
  have hbuttons : parseList unsButton (buttons.map buttonJson) = some buttons :=
    parseList_map _ _ _ fun b _ => unsButton_buttonJson b
  have hspikes : parseList unsRect (spikes.map rectJson) = some spikes :=
    parseList_map _ _ _ fun r _ => rfl
  have e : unserialize (serializeLevelState
      ⟨config, platforms, door, spawn, key, blocks, bridges, buttons, spikes⟩) =
      (parseList unsRect (platforms.map rectJson)).bind fun ps =>
      (unsOpt unsRect (optJson rectJson door)).bind fun dr =>
      (unsOpt unsPoint (optJson pointJson spawn)).bind fun spn =>
      (unsOpt unsPoint (optJson pointJson key)).bind fun ky =>
      (parseList unsBlock (blocks.map blockJson)).bind fun bls =>
      (parseList unsBridge (bridges.map bridgeJson)).bind fun brs =>
      (parseList unsButton (buttons.map buttonJson)).bind fun bts =>
      (parseList unsRect (spikes.map rectJson)).bind fun sps =>
      some { config := config, platforms := ps, door := dr, spawn := spn,
             key := ky, blocks := bls, bridges := brs, buttons := bts,
             spikes := sps } := rfl
  rw [e, hplat, hblocks, hbridges, hbuttons, hspikes]
  have hdr : unsOpt unsRect (optJson rectJson door) = some door := by
    cases door <;> rfl
  have hsp : unsOpt unsPoint (optJson pointJson spawn) = some spawn := by
    cases spawn <;> rfl
  have hky : unsOpt unsPoint (optJson pointJson key) = some key := by
    cases key <;> rfl
  rw [hdr, hsp, hky]
  rfl

/-- `serializeLevelState` is injective, so comparing stored snapshot strings
(as `pushHistorySnapshot` does with `===`) is the same as comparing the level
states they serialize. -/
theorem serializeLevelState_injective : Function.Injective serializeLevelState := by
  intro a b h
  have := congrArg unserialize h
  rw [unserialize_serialize, unserialize_serialize] at this
  exact Option.some.inj this

/-- The editor history state: the level/game state plus the two snapshot
stacks (`undoStack` / `redoStack` in Game.ts).  The code stores snapshots as
serialized strings and pushes/pops at the array end; here the lists are
newest-first (`push` is `cons`, `pop` takes the head) and each entry is the
`LevelState` the stored string serializes — faithful because
`serializeLevelState` is injective (`serializeLevelState_injective`).
`suppressHistory` is set around the load inside undo/redo, so those loads
push nothing; this is represented by the operations simply not pushing. -/
structure Session where
  game : GameState
  undoStack : List LevelState
  redoStack : List LevelState
deriving DecidableEq

/-- `pushHistorySnapshot` (lines 1641–1649): push the serialized current
state unless it equals the top of the stack; a push clears the redo stack and
the stack is capped at 250 snapshots (oldest dropped). -/
def pushHistorySnapshot (s : Session) : Session :=
  let j := buildLevelState s.game
  if s.undoStack.head? = some j then s
  else { s with undoStack := (j :: s.undoStack).take 250, redoStack := [] }

/-- The history initialization in `initGame` (lines 207–209): both stacks are
cleared and the baseline snapshot of the freshly loaded level is pushed. -/
def initHistory (g : GameState) : Session :=
  pushHistorySnapshot { game := g, undoStack := [], redoStack := [] }

/-- Reloading a stored snapshot string: `loadLevelFromJson` applied to the
serialization of the stacked state. -/
def loadSnapshot (l : LevelState) (g : GameState) : GameState :=
  loadLevelFromJson (some (serializeLevelState l)) g

/-- `performUndo` (lines 504–515): with at most one snapshot it returns
`false` and does nothing; otherwise the current snapshot moves to the redo
stack and the previous snapshot is reloaded (with history suppressed). -/
def performUndo (s : Session) : Bool × Session :=
  if s.undoStack.length ≤ 1 then (false, s)
  else
    match s.undoStack with
    | [] => (false, s)
    | current :: rest =>
      let s' : Session := { s with undoStack := rest,
                                   redoStack := current :: s.redoStack }
      match rest with
      | [] => (false, s')
      | prev :: _ =>
        (true, { s' with game := loadSnapshot prev s'.game })

/-- `performRedo` (lines 517–525): pop the redo stack, push the snapshot back
onto the undo stack and reload it (with history suppressed). -/
def performRedo (s : Session) : Bool × Session :=
  match s.redoStack with
  | [] => (false, s)
  | next :: rest =>
    (true, { game := loadSnapshot next s.game,
             undoStack := next :: s.undoStack,
             redoStack := rest })

/-- The players currently joined, in slot order (`playerSlots` minus nulls). -/
def presentPlayers (g : GameState) : List PlayerRT :=
  (List.finRange 4).filterMap g.players

/-- `resetOnDeath` (Game.ts lines 1318–1362): clear completion and door
state, return the key to its origin (or drop it if it has no origin), pin
every block static at its placed rect with zero velocity, and send every
bridge home with activation, latch and carry cleared. -/
def resetOnDeath (g : GameState) : GameState :=
  let keyPart : Option Body :=
    match g.keyPoint with
    | some k => some (keyCircleBody k)
    | none => none
  { g with
    levelCompleted := false
    completionFrames := 0
    doorUnlocked := false
    keyBody := keyPart
    keyCarrierSlot := none
    blocks := g.blocks.map fun b =>
      { b with body :=
          { b.body with
            pos := ⟨b.bdef.x + b.bdef.w / 2, b.bdef.y + b.bdef.h / 2⟩,
            vel := ⟨0, 0⟩, isStatic := true } }
    bridges := g.bridges.map fun br =>
      { br with
        activated := false
        latched := false
        carryX := 0
        body := { br.body with pos := br.home, vel := ⟨0, 0⟩ } } }

/-- `respawnAllPlayers` (lines 1364–1375): reset the level and teleport every
present player to its slot's spawn offset with zero velocity. -/
def respawnAllPlayers (g : GameState) : GameState :=
  let g := resetOnDeath g
  let spawn := ensureSpawn g.spawnPoint g.levelConfig
  { g with
    spawnPoint := some spawn
    players := fun slot =>
      (g.players slot).map fun p =>
        { p with body := { p.body with
            pos := getSpawnForSlot slot.val (some spawn), vel := ⟨0, 0⟩ } } }

/-- Any present player overlapping any spike body (the loop of `updateSpikes`). -/
def anyPlayerOnSpike (g : GameState) : Bool :=
  (presentPlayers g).any fun p => g.spikeBodies.any fun s => collidesB p.body s

/-- `updateSpikes` (systems/spikes.ts): if any present player collides with a
spike body, the whole level is respawned in the same tick. -/
def updateSpikes (g : GameState) : GameState :=
  if g.spikeBodies.isEmpty then g
  else if anyPlayerOnSpike g then respawnAllPlayers g
  else g

/-- The pressed test of `updateButtons` (systems/buttons.ts lines 29–40):
a button is pressed while any present player or any block overlaps it. -/
def buttonPressedNow (g : GameState) (b : ButtonRT) : Bool :=
  ((presentPlayers g).any fun p => collidesB b.body p.body) ||
  (g.blocks.any fun bl => collidesB b.body bl.body)

/-- The opening loop of `updateButtons`: `bridgeActivated[i] = false` for
every bridge. -/
def clearActivations (g : GameState) : GameState :=
  { g with bridges := g.bridges.map fun br => { br with activated := false } }

/-- The press loop of `updateButtons`: recompute every button's `pressed`. -/
def pressButtons (g : GameState) : List ButtonRT :=
  g.buttons.map fun b => { b with pressed := buttonPressedNow g b }

/-- The `activeBridgeIds` set: target ids of the pressed buttons. -/
def activeBridgeIds (buttons : List ButtonRT) : List ℚ :=
  buttons.filterMap fun b => if b.pressed then b.bdef.targetBridgeId else none

/-- The closing loop of `updateButtons`: mark a bridge activated when its id
is in the active set, latching permanent ones. -/
def applyActivations (activeIds : List ℚ) (br : BridgeRT) : BridgeRT :=
  let active := decide (br.bdef.id ∈ activeIds)
  { br with activated := active,
            latched := br.latched || (active && br.bdef.permanent) }

/-- `updateButtons` (systems/buttons.ts): clear all bridge activations, then
recompute each button's `pressed` flag, collect the target bridge ids of the
pressed buttons, and mark those bridges activated — latching the permanent
ones. -/
def updateButtons (g : GameState) : GameState :=
  let g1 := clearActivations g
  if g1.buttons.isEmpty then g1
  else
    let buttons := pressButtons g1
    let activeIds := activeBridgeIds buttons
    let g2 : GameState := { g1 with buttons := buttons }
    if activeIds.isEmpty then g2
    else { g2 with bridges := g2.bridges.map (applyActivations activeIds) }

/-- `Math.hypot(dx, dy)` as `updateBridges` uses it: the bridge direction is
a unit axis vector and the bridge only ever moves along the home–target axis,
so one of the two components is always zero and the Euclidean norm equals
`|dx| + |dy|`; the model uses that form (exact on the reachable states). -/
def axisNorm (dx dy : ℚ) : ℚ := |dx| + |dy|

/-- The destination-slice obstruction test of `updateBridges` (systems/
bridges.ts lines 55–100): a slice of space in the direction of travel is
queried for blocks; the length-0 guards of the source before each `filter`
are omitted (filtering an empty list is a no-op). -/
def bridgeObstructed (blocks : List Body) (body : Body) (mx my : ℚ) : Bool :=
  if blocks.isEmpty then false
  else
    let tol : ℚ := 2
    let horizontal := |my| ≤ |mx|
    let region : Region :=
      if horizontal then
        if 0 < mx then
          ⟨body.maxB.x, body.minB.y + tol, body.maxB.x + 4, body.maxB.y - tol⟩
        else
          ⟨body.minB.x - 4, body.minB.y + tol, body.minB.x, body.maxB.y - tol⟩
      else
        if 0 < my then
          ⟨body.minB.x + tol, body.maxB.y, body.maxB.x - tol, body.maxB.y + 4⟩
        else
          ⟨body.minB.x + tol, body.minB.y - 4, body.maxB.x - tol, body.minB.y⟩
    let obstructors := blocks.filter (regionHits region)
    let obstructors :=
      if horizontal then
        obstructors.filter fun b => decide (body.minB.y + tol < b.maxB.y)
      else obstructors
    let obstructors :=
      if !horizontal && my < 0 then
        obstructors.filter fun b => decide (tol < |b.maxB.y - body.minB.y|)
      else obstructors
    !obstructors.isEmpty

/-- The per-bridge body of the `updateBridges` loop (systems/bridges.ts):
weight activation, OR-combined activity, a speed-2 step toward the target
(clamped to land exactly), the obstruction hold, and the published `carryX`. -/
def bridgeStep (playerBodies blockBodies : List Body) (br : BridgeRT) : BridgeRT :=
  let body := br.body
  let activeByPlayers :=
    match br.bdef.requiredPlayers with
    | some r =>
      if 0 < r ∧ playerBodies ≠ [] then
        let region : Region :=
          ⟨body.minB.x + 4, body.minB.y - 8, body.maxB.x - 4, body.minB.y + 6⟩
        decide (r ≤ ((playerBodies.filter (regionHits region)).length : ℚ))
      else false
    | none => false
  let active := br.activated || br.latched || activeByPlayers
  let target : PointQ :=
    if active then
      ⟨br.home.x + br.bdef.dx * br.bdef.distance,
       br.home.y + br.bdef.dy * br.bdef.distance⟩
    else br.home
  let dx := target.x - body.pos.x
  let dy := target.y - body.pos.y
  let dist := axisNorm dx dy
  if dist < 1/1000 then
    { br with carryX := 0, body := { body with vel := ⟨0, 0⟩ } }
  else
    let mag := min 2 dist
    let mx := dx / dist * mag
    let my := dy / dist * mag
    if bridgeObstructed blockBodies body mx my then
      { br with carryX := 0, body := { body with vel := ⟨0, 0⟩ } }
    else
      let moved : Body :=
        { body with pos := ⟨body.pos.x + mx, body.pos.y + my⟩, vel := ⟨0, 0⟩ }
      { br with carryX := mx, body := moved }

/-- `updateBridges` (systems/bridges.ts): step every bridge; players and
blocks are read but not written. -/
def updateBridges (g : GameState) : GameState :=
  if g.bridges.isEmpty then g
  else
    let playerBodies := (presentPlayers g).map (·.body)
    let blockBodies := g.blocks.map (·.body)
    { g with bridges := g.bridges.map (bridgeStep playerBodies blockBodies) }

/-- The direct-pusher test of the `updateBlocks` loop (systems/blocks.ts
lines 85–101): the player must exist, satisfy the single-owner restriction,
press the axis at or beyond the 0.2 dead-zone, collide with the block, and
push toward the block's centre from its side (`dirRight` selects the
`dx > 0 && axis > 0` right-pushing case versus the left one). -/
def isDirectPusher (players : Fin 4 → Option PlayerRT) (bdef : BlockDef)
    (body : Body) (dirRight : Bool) (slot : Fin 4) : Bool :=
  match players slot with
  | none => false
  | some p =>
    (match bdef.allowedPlayer with
     | some a => decide ((slot.val : ℚ) = a)
     | none => true) &&
    decide ((1/5 : ℚ) ≤ |p.moveAxisX|) &&
    collidesB body p.body &&
    (if dirRight then
       decide (0 < body.pos.x - p.body.pos.x) && decide (0 < p.moveAxisX)
     else
       decide (body.pos.x - p.body.pos.x < 0) && decide (p.moveAxisX < 0))

def rightDirect (players : Fin 4 → Option PlayerRT) (bdef : BlockDef)
    (body : Body) : Finset (Fin 4) :=
  Finset.univ.filter fun slot => isDirectPusher players bdef body true slot = true

def leftDirect (players : Fin 4 → Option PlayerRT) (bdef : BlockDef)
    (body : Body) : Finset (Fin 4) :=
  Finset.univ.filter fun slot => isDirectPusher players bdef body false slot = true

/-- `presentSlots` of the propagation loop. -/
def presentSlotsList (players : Fin 4 → Option PlayerRT) : List (Fin 4) :=
  (List.finRange 4).filter fun s => (players s).isSome

/-- Contact between the candidate player and a pusher already in the set. -/
def contactWith (players : Fin 4 → Option PlayerRT) (p : PlayerRT)
    (t : Fin 4) : Bool :=
  match players t with
  | some q => collidesB p.body q.body
  | none => false

/-- Axis condition of the propagation loop: strictly beyond the dead-zone in
the push direction (`p.moveAxisX <= 0.2` / `>= -0.2` make the loop skip). -/
def propAxisOk (dirRight : Bool) (p : PlayerRT) : Bool :=
  if dirRight then decide ((1/5 : ℚ) < p.moveAxisX)
  else decide (p.moveAxisX < -(1/5 : ℚ))

/-- One candidate inspection of the inner `for` of `propagate`
(systems/blocks.ts lines 105–125). -/
def propPassStep (players : Fin 4 → Option PlayerRT) (dirRight : Bool)
    (s : Finset (Fin 4)) (slot : Fin 4) : Finset (Fin 4) :=
  if slot ∈ s then s
  else
    match players slot with
    | none => s
    | some p =>
      if propAxisOk dirRight p then
        if ∃ t ∈ s, contactWith players p t = true then insert slot s else s
      else s

/-- One full sweep over the present slots. -/
def propPass (players : Fin 4 → Option PlayerRT) (dirRight : Bool)
    (s : Finset (Fin 4)) : Finset (Fin 4) :=
  (presentSlotsList players).foldl (propPassStep players dirRight) s

/-- The `while (changed)` fixed-point loop of `propagate`.  The set can only
grow and lives inside the four slots, so five sweeps always reach the fixed
point; the source's unbounded loop terminates for the same reason. -/
def propagateFix (players : Fin 4 → Option PlayerRT) (dirRight : Bool) :
    ℕ → Finset (Fin 4) → Finset (Fin 4)
  | 0, s => s
  | n + 1, s =>
    let s' := propPass players dirRight s
    if s' = s then s else propagateFix players dirRight n s'

/-- `propagate(rightPushers, 1)` is only invoked on a non-empty direct set. -/
def rightFinal (players : Fin 4 → Option PlayerRT) (bdef : BlockDef)
    (body : Body) : Finset (Fin 4) :=
  let seed := rightDirect players bdef body
  if seed.Nonempty then propagateFix players true 5 seed else seed

def leftFinal (players : Fin 4 → Option PlayerRT) (bdef : BlockDef)
    (body : Body) : Finset (Fin 4) :=
  let seed := leftDirect players bdef body
  if seed.Nonempty then propagateFix players false 5 seed else seed

/-- The final `pushers` set of the loop: the direct pushers of both
directions plus everything the two propagations added. -/
def pusherSet (players : Fin 4 → Option PlayerRT) (bdef : BlockDef)
    (body : Body) : Finset (Fin 4) :=
  rightFinal players bdef body ∪ leftFinal players bdef body

/-- The threshold test (`shouldMove`, systems/blocks.ts lines 130–133). -/
def blockShouldMove (players : Fin 4 → Option PlayerRT) (bdef : BlockDef)
    (body : Body) : Bool :=
  match bdef.allowedPlayer with
  | some _ => decide (0 < (pusherSet players bdef body).card)
  | none =>
    decide (bdef.required.getD 1 ≤ ((pusherSet players bdef body).card : ℚ))

/-- The support-query region directly below a block
(`regionBelow`, systems/blocks.ts lines 137–141). -/
def belowBodies (supports : List Body) (body : Body) : List Body :=
  let region : Region := ⟨body.minB.x, body.maxB.y, body.maxB.x, body.maxB.y + 8⟩
  supports.filter (regionHits region)

/-- `bestGap` (lines 142–149): the support gap of smallest magnitude within
8 pixels. -/
def bestGapB (supports : List Body) (body : Body) : Option ℚ :=
  (belowBodies supports body).foldl
    (fun best support =>
      let gap := support.minB.y - body.maxB.y
      if 8 < |gap| then best
      else
        match best with
        | none => some gap
        | some bg => if |gap| < |bg| then some gap else best)
    none

/-- `grounded` (line 150): a support within one pixel below. -/
def groundedB (supports : List Body) (body : Body) : Bool :=
  match bestGapB supports body with
  | some bg => decide (|bg| ≤ 1)
  | none => false

/-- The pinning support search (lines 160–181): the support top of smallest
gap magnitude within 12 pixels, used to seat the block exactly on it. -/
def pinSupportTop (supports : List Body) (body : Body) : Option ℚ :=
  (belowBodies supports body).foldl
    (fun best support =>
      let gap := support.minB.y - body.maxB.y
      if 12 < |gap| then best
      else
        match best with
        | none => some support.minB.y
        | some bTop => if |gap| < |bTop - body.maxB.y| then some support.minB.y
                       else best)
    none

/-- The per-block body of the `updateBlocks` loop (systems/blocks.ts lines
76–188): publish the pusher count, then free the block when the threshold is
met, keep it dynamic when unsupported, and pin it static (seated on its
support, horizontal velocity zeroed) when resting without enough pushers. -/
def blockStep (supports : List Body) (players : Fin 4 → Option PlayerRT)
    (b : BlockRT) : BlockRT :=
  let body := b.body
  let shouldMove := blockShouldMove players b.bdef body
  let grounded := groundedB supports body
  let b' : BlockRT := { b with pusherCount := (pusherSet players b.bdef body).card }
  if shouldMove then
    { b' with body := { body with isStatic := false } }
  else if !grounded && body.isStatic then
    { b' with body := { body with isStatic := false } }
  else if grounded && !body.isStatic then
    let newY :=
      match pinSupportTop supports body with
      | some top => top - body.h / 2
      | none => body.pos.y
    let pinned : Body :=
      { body with
        pos := ⟨body.pos.x, newY⟩
        vel := ⟨0, body.vel.y⟩
        isStatic := true }
    { b' with body := pinned }
  else b'

/-- Stable insertion sort of block indices by body y-coordinate, descending:
the `indices.sort((a, b) => blockBodies[b].position.y - blockBodies[a].position.y)`
pass that processes bottom blocks first. -/
def insertYDesc (keyOf : ℕ → ℚ) (i : ℕ) : List ℕ → List ℕ
  | [] => [i]
  | j :: rest =>
    if keyOf j < keyOf i then i :: j :: rest else j :: insertYDesc keyOf i rest

def sortIdxByYDesc (keyOf : ℕ → ℚ) (n : ℕ) : List ℕ :=
  (List.range n).foldr (insertYDesc keyOf) []

/-- The support candidates visible to one block: every body whose label is in
`{ground, platform, bridge, block, player}` except the block's own body. -/
def blockSupports (g : GameState) (blocks : List BlockRT) (i : ℕ) : List Body :=
  g.boundaries ++ g.levelRects.map staticRectBody ++ g.bridges.map (·.body) ++
  (blocks.eraseIdx i).map (·.body) ++ (presentPlayers g).map (·.body)

/-- `updateBlocks` (systems/blocks.ts): process the blocks bottom-first,
threading the updated list so later blocks see earlier pins. -/
def updateBlocks (g : GameState) : GameState :=
  if g.blocks.isEmpty then g
  else
    let keyOf : ℕ → ℚ := fun i => ((g.blocks.get? i).map (·.body.pos.y)).getD 0
    let order := sortIdxByYDesc keyOf g.blocks.length
    let step := fun (blocks : List BlockRT) (i : ℕ) =>
      match blocks.get? i with
      | none => blocks
      | some b => blocks.set i (blockStep (blockSupports g blocks i) g.players b)
    { g with blocks := order.foldl step g.blocks }

/-- The per-tick systems of the fixed-timestep loop in `initGame`. -/
inductive Phase where
  | grounding
  | keySystem
  | blockPush
  | buttonSystem
  | bridgeMotion
  | doorSystem
  | spikeRespawn
  | cameraFollow
  | physicsIntegration
  | supportCarry
deriving DecidableEq, Repr

/-- Each system call appends its phase to the tick trace. -/
def sysCall (p : Phase) (tr : List Phase) : List Phase := tr ++ [p]

/-- The body of the `while (accumulatorMs >= fixedDeltaMs)` loop in `initGame`
(Game.ts lines 743–772), one call per system in source order:
`checkGrounding`, `sysUpdateKey`, `sysUpdateButtons`, `sysUpdateBridges`,
`sysUpdateBlocks`, `sysUpdateDoor`, `sysUpdateSpikes`, `updateCameraFollow` /
`updateEditorCameraPan`, then `Engine.update` — whose `afterUpdate` event
runs the support-carry handlers registered by `initPlayerCarrying` /
`initBlockCarrying` after integration. -/
def runTick (tr : List Phase) : List Phase :=
  sysCall .supportCarry
    (sysCall .physicsIntegration
      (sysCall .cameraFollow
        (sysCall .spikeRespawn
          (sysCall .doorSystem
            (sysCall .blockPush
              (sysCall .bridgeMotion
                (sysCall .buttonSystem
                  (sysCall .keySystem
                    (sysCall .grounding tr)))))))))

/-- The tick order asserted by the specification (section 5): grounding →
key → block-push → button → bridge-motion → door → spike/respawn → camera →
physics-engine integration → support-carry correction.  Stated from the
spec's words for comparison with the source's `runTick`. -/
def specClaimedTickOrder : List Phase :=
  [.grounding, .keySystem, .blockPush, .buttonSystem, .bridgeMotion,
   .doorSystem, .spikeRespawn, .cameraFollow, .physicsIntegration,
   .supportCarry]

/-- `removeBridgeBody` (entities/bridge.ts lines 39–69) at a found index:
splice the bridge out of all parallel arrays and null every button whose
`targetBridgeId` references the removed bridge's id. -/
def removeBridgeAt (g : GameState) (idx : ℕ) : GameState :=
  match g.bridges.get? idx with
  | none => g
  | some br =>
    { g with
      bridges := g.bridges.eraseIdx idx
      buttons := g.buttons.map fun b =>
        if b.bdef.targetBridgeId = some br.bdef.id then
          { b with bdef := { b.bdef with targetBridgeId := none } }
        else b }

/-- The definition built by the editor's `addBlock` (entities/block.ts lines
4–33): a finite `allowedPlayer` forces the single-owner rule, otherwise the
clamped `required` count is stored (every rational is finite here). -/
def addBlockDef (rect : LevelRect) (required : ℚ) (allowedPlayer : Option ℚ) :
    BlockDef :=
  let clamped := clampQ 1 4 (jround required)
  match allowedPlayer with
  | some a => { x := rect.x, y := rect.y, w := rect.w, h := rect.h,
                allowedPlayer := some (clampQ 0 3 (jround a)) }
  | none => { x := rect.x, y := rect.y, w := rect.w, h := rect.h,
              required := some clamped }

/-- A minimal well-formed game state (the default level after `initGame`
on an empty storage: snapped camera-sized config, default door and spawn,
no entities, no players). -/
def sampleState : GameState :=
  { levelConfig := ⟨960, 540⟩
    levelRects := []
    doorRect := some ⟨860, 420, 40, 80⟩
    doorBody := some (staticRectBody ⟨860, 420, 40, 80⟩)
    spawnPoint := some ⟨80, 400⟩
    keyPoint := none
    keyBody := none
    keyCarrierSlot := none
    doorUnlocked := false
    blocks := []
    bridges := []
    buttons := []
    spikes := []
    spikeBodies := []
    boundaries := rebuildBounds ⟨960, 540⟩
    players := fun _ => none
    nextEntityId := 1
    levelCompleted := false
    completionFrames := 0 }

/-- C1: if the import string is not valid JSON (`JSON.parse` throws, modelled
by `none`) or the parsed value is rejected by `parseLevelState`, then
`loadLevelFromJson` returns without mutating any part of the level state:
config, entity arrays, door, spawn, key, id counter and runtime flags are
exactly as before the call. -/
theorem C1_load_rejected_no_mutation (input : Option Json) (g : GameState)
    (h : input = none ∨ ∃ j, input = some j ∧ parseLevelState g.levelConfig j = none) :
    loadLevelFromJson input g = g := by
  rcases h with rfl | ⟨j, rfl, hj⟩
  · rfl
  · simp [loadLevelFromJson, hj]

/-- Witness for C1: a blob whose top-level shape is invalid (`null`) is
rejected by the validator and the sample state survives the load unchanged. -/
theorem C1_witness :
    (parseLevelState sampleState.levelConfig Json.null = none) ∧
    loadLevelFromJson (some Json.null) sampleState = sampleState :=
  ⟨rfl, C1_load_rejected_no_mutation (some Json.null) sampleState
    (Or.inr ⟨Json.null, rfl, rfl⟩)⟩

/-- C2: whenever any present player overlaps a spike during a tick,
`updateSpikes` performs the full level reset in that same tick: the key
returns to its origin (or is removed if it has none), every block is moved
back to its placed definition rectangle and pinned static with zero velocity,
every bridge returns to `homeCenter` with `activated`/`latched`/`carryX`
cleared, every present player is teleported to its slot's spawn offset with
zero velocity, and `doorUnlocked`, `levelCompleted`, `completionFrames` are
cleared. -/
theorem C2_spike_full_reset (g : GameState) (hhit : anyPlayerOnSpike g = true) :
    updateSpikes g = respawnAllPlayers g ∧
    (∀ k, g.keyPoint = some k →
      (updateSpikes g).keyBody = some (keyCircleBody k)) ∧
    (g.keyPoint = none → (updateSpikes g).keyBody = none) ∧
    (updateSpikes g).keyCarrierSlot = none ∧
    (∀ b ∈ (updateSpikes g).blocks,
      b.body.pos = ⟨b.bdef.x + b.bdef.w / 2, b.bdef.y + b.bdef.h / 2⟩ ∧
      b.body.isStatic = true ∧ b.body.vel = ⟨0, 0⟩) ∧
    (∀ br ∈ (updateSpikes g).bridges,
      br.body.pos = br.home ∧ br.body.vel = ⟨0, 0⟩ ∧
      br.activated = false ∧ br.latched = false ∧ br.carryX = 0) ∧
    (∀ slot p, (updateSpikes g).players slot = some p →
      p.body.pos = getSpawnForSlot slot.val
        (some (ensureSpawn g.spawnPoint g.levelConfig)) ∧
      p.body.vel = ⟨0, 0⟩) ∧
    (updateSpikes g).doorUnlocked = false ∧
    (updateSpikes g).levelCompleted = false ∧
    (updateSpikes g).completionFrames = 0 := by
  have hne : g.spikeBodies.isEmpty = false := by
    cases hsE : g.spikeBodies with
    | nil => rw [anyPlayerOnSpike] at hhit; simp [hsE] at hhit
    | cons a t => rfl
  have hrun : updateSpikes g = respawnAllPlayers g := by
    rw [updateSpikes, hne, hhit]
    rfl
  rw [hrun]
  refine ⟨rfl, ?_, ?_, rfl, ?_, ?_, ?_, rfl, rfl, rfl⟩
  · intro k hk
    simp [respawnAllPlayers, resetOnDeath, hk]
  · intro hk
    simp [respawnAllPlayers, resetOnDeath, hk]
  · intro b hb
    simp only [respawnAllPlayers, resetOnDeath] at hb
    simp only [List.mem_map] at hb
    obtain ⟨b0, _, rfl⟩ := hb
    exact ⟨rfl, rfl, rfl⟩
  · intro br hbr
    simp only [respawnAllPlayers, resetOnDeath] at hbr
    simp only [List.mem_map] at hbr
    obtain ⟨br0, _, rfl⟩ := hbr
    exact ⟨rfl, rfl, rfl, rfl, rfl⟩
  · intro slot p hp
    simp only [respawnAllPlayers] at hp
    rw [Option.map_eq_some'] at hp
    obtain ⟨p0, _, rfl⟩ := hp
    exact ⟨rfl, rfl⟩

/-- The sample state with one spike and one player standing on it. -/
def c2State : GameState :=
  { sampleState with
    spikes := [⟨80, 380, 40, 40⟩]
    spikeBodies := [staticRectBody ⟨80, 380, 40, 40⟩]
    players := fun s =>
      if s.val = 0 then
        some { body := { pos := ⟨80, 400⟩, vel := ⟨0, 0⟩, isStatic := false,
                         w := 40, h := 40 },
               moveAxisX := 0 }
      else none }

/-- Witness for C2: with a player overlapping the spike, the tick runs the
full respawn. -/
theorem C2_witness :
    anyPlayerOnSpike c2State = true ∧
    updateSpikes c2State = respawnAllPlayers c2State :=
  ⟨by with_unfolding_all rfl,
   (C2_spike_full_reset c2State (by with_unfolding_all rfl)).1⟩

/-- C10: with only the baseline snapshot on the undo stack (no mutating
action since the baseline), `undo()` returns `false` and leaves the level
state and both history stacks unchanged; `performUndo` never empties a
non-empty undo stack, and the `initGame` baseline is a single snapshot. -/
theorem C10_undo_baseline (s : Session) (h : s.undoStack.length = 1) :
    performUndo s = (false, s) ∧
    (∀ s' : Session, 1 ≤ s'.undoStack.length →
      1 ≤ (performUndo s').2.undoStack.length) ∧
    (∀ g : GameState, (initHistory g).undoStack.length = 1) := by
  refine ⟨by simp [performUndo, h], ?_, ?_⟩
  · intro s' h1
    by_cases hle : s'.undoStack.length ≤ 1
    · simp [performUndo, hle]
      exact h1
    · push_neg at hle
      match hstk : s'.undoStack, hle with
      | a :: b :: rest, _ =>
        simp [performUndo, hstk]
  · intro g
    simp [initHistory, pushHistorySnapshot]

/-- Witness for C10: a fresh session's baseline stack has one entry and undo
on it fails without touching anything. -/
theorem C10_witness :
    (initHistory sampleState).undoStack.length = 1 ∧
    performUndo (initHistory sampleState) = (false, initHistory sampleState) :=
  ⟨by with_unfolding_all rfl,
   (C10_undo_baseline (initHistory sampleState) (by with_unfolding_all rfl)).1⟩

/-- C7 counterexample: the tick order the claim asserts (grounding → key →
block-push → button → bridge-motion → …) is not the order the update loop
runs; blocks are updated after buttons and bridges. -/
theorem C7_counterexample : runTick [] ≠ specClaimedTickOrder := by decide

/-- C7 amended: within every simulation tick the systems run in the fixed
order grounding → key → button → bridge-motion → block-push → door →
spike/respawn → camera → physics-engine integration → support-carry
correction. -/
theorem C7_amended_tick_order (tr : List Phase) :
    runTick tr = tr ++
      [.grounding, .keySystem, .buttonSystem, .bridgeMotion, .blockPush,
       .doorSystem, .spikeRespawn, .cameraFollow, .physicsIntegration,
       .supportCarry] := by
  simp [runTick, sysCall]

theorem clampQ_le_right {lo hi : ℚ} (v : ℚ) (h : lo ≤ hi) : clampQ lo hi v ≤ hi :=
  max_le h (min_le_left hi v)

/-- Exactly one of the two block rule fields is set, within its valid range. -/
def blockRuleExclusive (b : BlockDef) : Prop :=
  (∃ r, b.required = some r ∧ b.allowedPlayer = none ∧ 1 ≤ r ∧ r ≤ 4) ∨
  (∃ a, b.allowedPlayer = some a ∧ b.required = none ∧ 0 ≤ a ∧ a ≤ 3)

/-- An imported block item carrying both numeric rule fields: the validator
pushes two stored definitions for it. -/
def c9Item : Json :=
  .obj [("x", .num 0), ("y", .num 0), ("w", .num 20), ("h", .num 20),
        ("required", .num 2), ("allowedPlayer", .num 1)]

def c9Blob : Json :=
  .obj [("platforms", .arr []), ("blocks", .arr [c9Item])]

/-- C9 counterexample: parsing one imported block object that carries both
`required` and `allowedPlayer` yields two stored block definitions, not
exactly one — both in the parse result and in the loaded level state. -/
theorem C9_counterexample :
    parseBlockItems [c9Item] =
      some [{ x := 0, y := 0, w := 20, h := 20, allowedPlayer := some 1 },
            { x := 0, y := 0, w := 20, h := 20, required := some 2 }] ∧
    (loadLevelFromJson (some c9Blob) sampleState).blocks.length = 2 := by
  constructor
  · with_unfolding_all rfl
  · with_unfolding_all rfl

/-- C9 amended: on every stored Block definition — whether built by the
editor's `addBlock`, produced by `parseLevelState`'s block loop, or committed
by `loadLevelFromJson` — the generic `required ∈ [1,4]` rule and the
single-owner `allowedPlayer ∈ [0,3]` rule are mutually exclusive: exactly one
field is set, in range.  However, one imported block object carrying both
numeric fields is split into two stored definitions (one per rule), and one
carrying neither gets `required = 2`. -/
theorem C9_amended_exclusive_rules :
    (∀ items bs, parseBlockItems items = some bs →
      ∀ b ∈ bs, blockRuleExclusive b) ∧
    (∀ ls g, ∀ blk ∈ (applyLoad ls g).blocks, blockRuleExclusive blk.bdef) ∧
    (∀ rect required allowedPlayer,
      blockRuleExclusive (addBlockDef rect required allowedPlayer)) := by
  have hcl14 : ∀ q : ℚ, 1 ≤ clampQ 1 4 q ∧ clampQ 1 4 q ≤ 4 := fun q =>
    ⟨clampQ_le_left 1 4 q, clampQ_le_right q (by norm_num)⟩
  have hcl03 : ∀ q : ℚ, 0 ≤ clampQ 0 3 q ∧ clampQ 0 3 q ≤ 3 := fun q =>
    ⟨clampQ_le_left 0 3 q, clampQ_le_right q (by norm_num)⟩
  have hrule : ∀ item r, ∀ b ∈ blockItemDefs item r, blockRuleExclusive b := by
    intro item r b hb
    have hmemA : ∀ b', b' ∈ ruleField (mkAllowedDef r)
        (item.getField "allowedPlayer") → blockRuleExclusive b' := by
      intro b' hb'
      cases ho : item.getField "allowedPlayer" with
      | none => rw [ho] at hb'; simp [ruleField] at hb'
      | some j =>
        rw [ho] at hb'
        cases j <;> simp [ruleField] at hb'
        subst hb'
        exact Or.inr ⟨_, rfl, rfl, (hcl03 _).1, (hcl03 _).2⟩
    have hmemR : ∀ b', b' ∈ ruleField (mkRequiredDef r)
        (item.getField "required") → blockRuleExclusive b' := by
      intro b' hb'
      cases ho : item.getField "required" with
      | none => rw [ho] at hb'; simp [ruleField] at hb'
      | some j =>
        rw [ho] at hb'
        cases j <;> simp [ruleField] at hb'
        subst hb'
        exact Or.inl ⟨_, rfl, rfl, (hcl14 _).1, (hcl14 _).2⟩
    simp only [blockItemDefs] at hb
    cases hcat : ruleField (mkAllowedDef r) (item.getField "allowedPlayer") ++
        ruleField (mkRequiredDef r) (item.getField "required") with
    | nil =>
      rw [hcat] at hb
      simp at hb
      subst hb
      exact Or.inl ⟨2, rfl, rfl, by norm_num, by norm_num⟩
    | cons xx ll =>
      rw [hcat] at hb
      have hb2 : b ∈ xx :: ll := hb
      rw [← hcat] at hb2
      rcases List.mem_append.mp hb2 with h' | h'
      · exact hmemA b h'
      · exact hmemR b h'
  refine ⟨?_, ?_, ?_⟩
  · intro items
    induction items with
    | nil =>
      intro bs hbs b hb
      simp only [parseBlockItems] at hbs
      cases hbs
      simp at hb
    | cons item rest ih =>
      intro bs hbs b hb
      simp only [parseBlockItems] at hbs
      match hr : parseRect item with
      | none => rw [hr] at hbs; cases hbs
      | some r =>
        rw [hr] at hbs
        match htl : parseBlockItems rest with
        | none => rw [htl] at hbs; cases hbs
        | some tl =>
          rw [htl] at hbs
          simp only [Option.map_some'] at hbs
          cases hbs
          rcases List.mem_append.mp hb with h' | h'
          · exact hrule item r b h'
          · exact ih tl htl b h'
  · intro ls g blk hblk
    simp only [applyLoad, List.mem_map] at hblk
    obtain ⟨b0, _, rfl⟩ := hblk
    match hap : b0.allowedPlayer with
    | some a =>
      right
      refine ⟨clampQ 0 3 (jround a), ?_, ?_, (hcl03 _).1, (hcl03 _).2⟩
      · simp [loadBlock, hap]
      · simp [loadBlock, hap]
    | none =>
      left
      match hrq : b0.required with
      | some q =>
        refine ⟨clampQ 1 4 (jround q), ?_, ?_, (hcl14 _).1, (hcl14 _).2⟩
        · simp [loadBlock, hap, hrq]
        · simp [loadBlock, hap, hrq]
      | none =>
        refine ⟨2, ?_, ?_, by norm_num, by norm_num⟩
        · simp [loadBlock, hap, hrq]
        · simp [loadBlock, hap, hrq]
  · intro rect required allowedPlayer
    match allowedPlayer with
    | some a =>
      exact Or.inr ⟨clampQ 0 3 (jround a), rfl, rfl, (hcl03 _).1, (hcl03 _).2⟩
    | none =>
      exact Or.inl ⟨clampQ 1 4 (jround required), rfl, rfl, (hcl14 _).1,
        (hcl14 _).2⟩

/-- Witness for C9: one rule field stored per definition, both for a parsed
block item and for an editor-placed block. -/
theorem C9_witness :
    blockRuleExclusive
      ({ x := 0, y := 0, w := 20, h := 20, allowedPlayer := some 1 } : BlockDef) ∧
    blockRuleExclusive (addBlockDef ⟨0, 0, 40, 40⟩ 2 none) := by
  constructor
  · exact C9_amended_exclusive_rules.1 [c9Item]
      [{ x := 0, y := 0, w := 20, h := 20, allowedPlayer := some 1 },
       { x := 0, y := 0, w := 20, h := 20, required := some 2 }]
      (by with_unfolding_all rfl) _ (List.mem_cons_self _ _)
  · exact C9_amended_exclusive_rules.2.2 ⟨0, 0, 40, 40⟩ 2 none

/-- A level blob whose single button references bridge id 5 while the level
contains no bridges at all. -/
def c8Blob : Json :=
  .obj [("platforms", .arr []),
        ("buttons", .arr [.obj [("x", .num 100), ("y", .num 100),
                                ("w", .num 40), ("h", .num 20),
                                ("id", .num 1), ("targetBridgeId", .num 5)]])]

/-- C8 counterexample: the loader accepts a button whose `targetBridgeId`
matches no bridge in the blob and stores the dangling reference as-is — it is
not self-healed to `null`, so after this load a non-null `targetBridgeId`
references no existing bridge. -/
theorem C8_counterexample :
    (loadLevelFromJson (some c8Blob) sampleState).buttons.map
      (·.bdef.targetBridgeId) = [some 5] ∧
    (loadLevelFromJson (some c8Blob) sampleState).bridges = [] := by
  constructor
  · with_unfolding_all rfl
  · with_unfolding_all rfl

/-- C8 amended: the loader performs no existence check on `targetBridgeId` —
a dangling non-null reference is accepted and stored verbatim (ids rounded),
never nulled and never a load failure.  References are nulled only when the
targeted bridge is deleted through the editor's erase (`removeBridgeBody`),
after which no button references the removed bridge's id. -/
theorem C8_amended_dangling_kept (ls : LevelState) (g g' : GameState)
    (idx : ℕ) (br : BridgeRT) (hbr : g'.bridges.get? idx = some br) :
    (applyLoad ls g).buttons.map (·.bdef.targetBridgeId) =
      ls.buttons.map (fun b => b.targetBridgeId.map jround) ∧
    (∀ b ∈ (removeBridgeAt g' idx).buttons,
      b.bdef.targetBridgeId ≠ some br.bdef.id) := by
  constructor
  · simp only [applyLoad, List.map_map]
    rfl
  · intro b hb
    simp only [removeBridgeAt, hbr, List.mem_map] at hb
    obtain ⟨b0, _, rfl⟩ := hb
    by_cases ht : b0.bdef.targetBridgeId = some br.bdef.id
    · simp [ht]
    · simp [ht]

/-- The sample state with one bridge (id 5) and one button targeting it. -/
def c8State : GameState :=
  { sampleState with
    bridges := [{ bdef := { x := 200, y := 200, w := 100, h := 20, id := 5,
                            dx := 1, dy := 0, distance := 100,
                            permanent := false },
                  body := staticRectBody ⟨200, 200, 100, 20⟩,
                  activated := false, latched := false,
                  home := ⟨250, 210⟩, carryX := 0 }]
    buttons := [{ bdef := { x := 100, y := 100, w := 40, h := 20, id := 1,
                            targetBridgeId := some 5 },
                  body := staticRectBody ⟨100, 100, 40, 20⟩,
                  pressed := false }] }

/-- Witness for C8: loading keeps references verbatim, and erasing the
bridge nulls the button that pointed at it. -/
theorem C8_witness :
    ((applyLoad (buildLevelState c8State) sampleState).buttons.map
       (·.bdef.targetBridgeId) =
      (buildLevelState c8State).buttons.map
        (fun b => b.targetBridgeId.map jround)) ∧
    (∀ b ∈ (removeBridgeAt c8State 0).buttons,
      b.bdef.targetBridgeId ≠ some 5) :=
  C8_amended_dangling_kept (buildLevelState c8State) sampleState c8State 0 _
    (by with_unfolding_all rfl)

theorem subset_propPassStep (players : Fin 4 → Option PlayerRT) (dir : Bool)
    (s : Finset (Fin 4)) (slot : Fin 4) : s ⊆ propPassStep players dir s slot := by
  unfold propPassStep
  split
  · exact Finset.Subset.refl s
  · split
    · exact Finset.Subset.refl s
    · split
      · split
        · exact Finset.subset_insert _ s
        · exact Finset.Subset.refl s
      · exact Finset.Subset.refl s

theorem subset_foldl_propPass (players : Fin 4 → Option PlayerRT) (dir : Bool)
    (l : List (Fin 4)) (s : Finset (Fin 4)) :
    s ⊆ l.foldl (propPassStep players dir) s := by
  induction l generalizing s with
  | nil => exact Finset.Subset.refl s
  | cons x xs ih =>
    exact (subset_propPassStep players dir s x).trans (ih _)

theorem subset_propPass (players : Fin 4 → Option PlayerRT) (dir : Bool)
    (s : Finset (Fin 4)) : s ⊆ propPass players dir s :=
  subset_foldl_propPass players dir _ s

theorem foldl_propPass_fixed (players : Fin 4 → Option PlayerRT) (dir : Bool)
    (l : List (Fin 4)) (s : Finset (Fin 4))
    (h : l.foldl (propPassStep players dir) s = s) :
    ∀ x ∈ l, propPassStep players dir s x = s := by
  induction l with
  | nil => intro x hx; cases hx
  | cons x xs ih =>
    intro x' hx'
    simp only [List.foldl_cons] at h
    have hstep : propPassStep players dir s x = s := by
      refine Finset.Subset.antisymm ?_ (subset_propPassStep players dir s x)
      calc propPassStep players dir s x
          ⊆ xs.foldl (propPassStep players dir) (propPassStep players dir s x) :=
            subset_foldl_propPass players dir xs _
        _ = s := h
    rcases List.mem_cons.mp hx' with rfl | hx'
    · exact hstep
    · exact ih (by rw [hstep] at h; exact h) x' hx'

theorem propPass_closure (players : Fin 4 → Option PlayerRT) (dir : Bool)
    (s : Finset (Fin 4)) (h : propPass players dir s = s) :
    ∀ slot p, players slot = some p → propAxisOk dir p = true →
      (∃ t ∈ s, contactWith players p t = true) → slot ∈ s := by
  intro slot p hp haxis hcontact
  by_contra hns
  have hmem : slot ∈ presentSlotsList players := by
    simp [presentSlotsList, hp]
  have hstep := foldl_propPass_fixed players dir _ s h slot hmem
  rw [propPassStep, if_neg hns, hp] at hstep
  simp only [haxis, if_true] at hstep
  rw [if_pos hcontact] at hstep
  exact hns (Finset.insert_eq_self.mp hstep)

theorem propPass_univ (players : Fin 4 → Option PlayerRT) (dir : Bool) :
    propPass players dir Finset.univ = Finset.univ := by
  unfold propPass
  generalize presentSlotsList players = l
  induction l with
  | nil => rfl
  | cons x xs ih =>
    simp only [List.foldl_cons]
    rw [show propPassStep players dir Finset.univ x = Finset.univ by
      rw [propPassStep, if_pos (Finset.mem_univ x)]]
    exact ih

theorem propagateFix_isFixed (players : Fin 4 → Option PlayerRT) (dir : Bool)
    (fuel : ℕ) (s : Finset (Fin 4)) (hfuel : 4 ≤ s.card + fuel) :
    propPass players dir (propagateFix players dir fuel s) =
      propagateFix players dir fuel s := by
  induction fuel generalizing s with
  | zero =>
    have hcard : s.card = 4 := le_antisymm
      (by simpa using Finset.card_le_univ s) (by omega)
    have huniv : s = Finset.univ :=
      Finset.eq_univ_of_card s (by simpa using hcard)
    subst huniv
    simpa [propagateFix] using propPass_univ players dir
  | succ n ih =>
    rw [propagateFix]
    by_cases hfx : propPass players dir s = s
    · simp [hfx]
    · simp only [hfx, if_neg hfx]
      apply ih
      have hsub : s ⊂ propPass players dir s :=
        (Finset.ssubset_iff_subset_ne).mpr ⟨subset_propPass players dir s,
          fun e => hfx e.symm⟩
      have := Finset.card_lt_card hsub
      omega

/-- The final pusher set of one propagation direction. -/
def dirFinal (players : Fin 4 → Option PlayerRT) (bdef : BlockDef)
    (body : Body) (dirRight : Bool) : Finset (Fin 4) :=
  if dirRight then rightFinal players bdef body else leftFinal players bdef body

theorem propPassStep_empty (players : Fin 4 → Option PlayerRT) (dir : Bool)
    (slot : Fin 4) : propPassStep players dir ∅ slot = ∅ := by
  unfold propPassStep
  rw [if_neg (Finset.not_mem_empty slot)]
  cases players slot with
  | none => rfl
  | some p =>
    by_cases hax : propAxisOk dir p = true
    · simp only [hax, if_true]
      rw [if_neg (by simp)]
    · simp [hax]

theorem propPass_empty (players : Fin 4 → Option PlayerRT) (dir : Bool) :
    propPass players dir ∅ = ∅ := by
  unfold propPass
  generalize presentSlotsList players = l
  induction l with
  | nil => rfl
  | cons x xs ih =>
    simp only [List.foldl_cons, propPassStep_empty]
    exact ih

theorem dirFinal_closed (players : Fin 4 → Option PlayerRT) (bdef : BlockDef)
    (body : Body) (dirRight : Bool) :
    propPass players dirRight (dirFinal players bdef body dirRight) =
      dirFinal players bdef body dirRight := by
  cases dirRight with
  | true =>
    simp only [dirFinal, if_pos, rightFinal]
    by_cases hne : (rightDirect players bdef body).Nonempty
    · rw [if_pos hne]
      exact propagateFix_isFixed players true 5 _ (by omega)
    · rw [if_neg hne, Finset.not_nonempty_iff_eq_empty.mp hne]
      exact propPass_empty _ _
  | false =>
    simp only [dirFinal, Bool.false_eq_true, if_false, leftFinal]
    by_cases hne : (leftDirect players bdef body).Nonempty
    · rw [if_pos hne]
      exact propagateFix_isFixed players false 5 _ (by omega)
    · rw [if_neg hne, Finset.not_nonempty_iff_eq_empty.mp hne]
      exact propPass_empty _ _

theorem belowBodies_nil_not_grounded (supports : List Body) (body : Body)
    (h : belowBodies supports body = []) : groundedB supports body = false := by
  rw [groundedB, bestGapB, h]
  rfl

/-- C4: for every Block on every tick of `updateBlocks`: if the computed
pusher set meets the threshold (`required` for generic blocks, at least one
— necessarily the allowed player — for single-owner blocks), the body is made
or kept dynamic; if the threshold is unmet and the block rests on a support
(`grounded`), it is pinned static with its x-position kept and, when it was
dynamic, its horizontal velocity zeroed; if the threshold is unmet and no
support lies below it, it is made or kept dynamic so it can fall. -/
theorem C4_block_disposition (supports : List Body)
    (players : Fin 4 → Option PlayerRT) (b : BlockRT) :
    (blockShouldMove players b.bdef b.body = true →
      (blockStep supports players b).body.isStatic = false) ∧
    (blockShouldMove players b.bdef b.body = false →
      groundedB supports b.body = true →
      (blockStep supports players b).body.isStatic = true ∧
      (blockStep supports players b).body.pos.x = b.body.pos.x ∧
      (b.body.isStatic = false →
        (blockStep supports players b).body.vel.x = 0)) ∧
    (blockShouldMove players b.bdef b.body = false →
      belowBodies supports b.body = [] →
      (blockStep supports players b).body.isStatic = false) := by
  refine ⟨?_, ?_, ?_⟩
  · intro hsm
    simp [blockStep, hsm]
  · intro hsm hg
    cases hst : b.body.isStatic with
    | true =>
      constructor
      · simp [blockStep, hsm, hg, hst]
      · constructor
        · simp [blockStep, hsm, hg, hst]
        · intro hfalse
          exact absurd hfalse (by simp [hst])
    | false =>
      refine ⟨?_, ?_, fun _ => ?_⟩ <;> simp [blockStep, hsm, hg, hst]
  · intro hsm hbelow
    have hg := belowBodies_nil_not_grounded supports b.body hbelow
    cases hst : b.body.isStatic with
    | true => simp [blockStep, hsm, hg, hst]
    | false => simp [blockStep, hsm, hg, hst]

/-- C5: the pusher set computed by `updateBlocks` for a block is closed under
chain propagation: if some pusher `A` is already in the direction's set and
player `B` is present, not yet in it, pressing the input strictly beyond the
dead-zone in the same push direction, and in bodily contact with a member,
then `B` is in the final set — no contact with the block itself required —
and every member of the propagated set is counted in the published pusher
count (`blockPusherCounts[i] = pushers.size`). -/
theorem C5_chain_propagation (players : Fin 4 → Option PlayerRT)
    (bdef : BlockDef) (body : Body) (dirRight : Bool) :
    (∀ slot p, players slot = some p → propAxisOk dirRight p = true →
      (∃ t ∈ dirFinal players bdef body dirRight,
        contactWith players p t = true) →
      slot ∈ dirFinal players bdef body dirRight) ∧
    dirFinal players bdef body dirRight ⊆ pusherSet players bdef body ∧
    (∀ supports b, (blockStep supports players b).pusherCount =
      (pusherSet players b.bdef b.body).card) := by
  refine ⟨?_, ?_, ?_⟩
  · exact propPass_closure players dirRight _
      (dirFinal_closed players bdef body dirRight)
  · cases dirRight with
    | true =>
      simp only [dirFinal, if_pos]
      exact Finset.subset_union_left
    | false =>
      simp only [dirFinal, Bool.false_eq_true, if_false]
      exact Finset.subset_union_right
  · intro supports b
    simp only [blockStep]
    repeat' split
    all_goals rfl

/-- A dynamic 40×40 block whose generic threshold is one pusher. -/
def c4Block : BlockRT :=
  { bdef := { x := 180, y := 80, w := 40, h := 40, required := some 1 },
    body := { pos := ⟨200, 100⟩, vel := ⟨0, 0⟩, isStatic := false,
              w := 40, h := 40 },
    pusherCount := 0 }

/-- Player A pushing the block rightward, player B chain-pushing behind A. -/
def c5PA : PlayerRT :=
  { body := { pos := ⟨165, 100⟩, vel := ⟨0, 0⟩, isStatic := false,
              w := 40, h := 40 }, moveAxisX := 1 }

def c5PB : PlayerRT :=
  { body := { pos := ⟨130, 100⟩, vel := ⟨0, 0⟩, isStatic := false,
              w := 40, h := 40 }, moveAxisX := 1 }

def c5Players : Fin 4 → Option PlayerRT := fun s =>
  if s.val = 0 then some c5PA else if s.val = 1 then some c5PB else none

/-- Witness for C4: with one pusher meeting the threshold the block body is
made dynamic. -/
theorem C4_witness :
    blockShouldMove c5Players c4Block.bdef c4Block.body = true ∧
    (blockStep [] c5Players c4Block).body.isStatic = false :=
  ⟨by with_unfolding_all rfl,
   (C4_block_disposition [] c5Players c4Block).1 (by with_unfolding_all rfl)⟩

/-- Witness for C5: player B (slot 1) touches only player A (slot 0), who
pushes the block; propagation adds B to the right-direction pusher set. -/
theorem C5_witness :
    (1 : Fin 4) ∈ dirFinal c5Players c4Block.bdef c4Block.body true :=
  (C5_chain_propagation c5Players c4Block.bdef c4Block.body true).1 1 c5PB
    (by with_unfolding_all rfl) (by with_unfolding_all rfl)
    ⟨0, of_decide_eq_true (by with_unfolding_all rfl),
        by with_unfolding_all rfl⟩

/-- The bridge-relevant slice of one tick: `sysUpdateButtons` then
`sysUpdateBridges`, in the update loop's order. -/
def tickBridges (g : GameState) : GameState := updateBridges (updateButtons g)

/-- No pressed button targets the given bridge id in this state. -/
def noPressedTarget (g : GameState) (id : ℚ) : Prop :=
  ∀ btn ∈ g.buttons, btn.bdef.targetBridgeId = some id →
    buttonPressedNow g btn = false

/-- The L1 distance of a single bridge from its home centre (exact for the
axis-aligned motion of `updateBridges`). -/
def bridgeDistHome (g : GameState) : ℚ :=
  match g.bridges with
  | [br] => |br.body.pos.x - br.home.x| + |br.body.pos.y - br.home.y|
  | _ => 0

theorem updateButtons_fields (g : GameState) :
    ∃ ids : List ℚ,
      (∀ id ∈ ids, ∃ btn ∈ g.buttons, buttonPressedNow g btn = true ∧
        btn.bdef.targetBridgeId = some id) ∧
      (updateButtons g).bridges = g.bridges.map (fun br =>
        { br with activated := decide (br.bdef.id ∈ ids),
                  latched := br.latched ||
                    (decide (br.bdef.id ∈ ids) && br.bdef.permanent) }) ∧
      (updateButtons g).blocks = g.blocks ∧
      (updateButtons g).players = g.players ∧
      (updateButtons g).buttons.map (fun b => (b.bdef, b.body)) =
        g.buttons.map (fun b => (b.bdef, b.body)) := by
  have hnil : g.bridges.map (fun br => ({ br with activated := false } : BridgeRT)) =
      g.bridges.map (fun br =>
        { br with activated := decide (br.bdef.id ∈ ([] : List ℚ)),
                  latched := br.latched ||
                    (decide (br.bdef.id ∈ ([] : List ℚ)) && br.bdef.permanent) }) := by
    have hfun : (fun br : BridgeRT => ({ br with activated := false } : BridgeRT)) =
        (fun br : BridgeRT =>
          { br with activated := decide (br.bdef.id ∈ ([] : List ℚ)),
                    latched := br.latched ||
                      (decide (br.bdef.id ∈ ([] : List ℚ)) && br.bdef.permanent) }) := by
      funext br
      have h1 : decide (br.bdef.id ∈ ([] : List ℚ)) = false := rfl
      rw [h1]
      simp
    rw [hfun]
  by_cases hempty : (clearActivations g).buttons.isEmpty = true
  · refine ⟨[], by simp, ?_, ?_, ?_, ?_⟩ <;>
      simp only [updateButtons, hempty, if_true]
    · show g.bridges.map (fun br => ({ br with activated := false } : BridgeRT)) = _
      exact hnil
    · rfl
    · rfl
    · rfl
  · by_cases hids :
      (activeBridgeIds (pressButtons (clearActivations g))).isEmpty = true
    · refine ⟨[], by simp, ?_, ?_, ?_, ?_⟩ <;>
        simp only [updateButtons, hempty, if_false, hids, if_true,
          Bool.false_eq_true]
      · show g.bridges.map (fun br => ({ br with activated := false } : BridgeRT)) = _
        exact hnil
      · rfl
      · rfl
      · simp [pressButtons, List.map_map]
        rfl
    · refine ⟨activeBridgeIds (pressButtons (clearActivations g)),
        ?_, ?_, ?_, ?_, ?_⟩
      · intro id hmemid
        rcases List.mem_filterMap.mp hmemid with ⟨b', hb', hcond⟩
        rcases List.mem_map.mp hb' with ⟨b, hb, rfl⟩
        by_cases hp : buttonPressedNow (clearActivations g) b = true
        · refine ⟨b, hb, hp, ?_⟩
          simp only [hp, if_true] at hcond
          exact hcond
        · simp only [eq_false_of_ne_true hp] at hcond
          simp at hcond
      all_goals
        simp only [updateButtons, hempty, hids, if_false, Bool.false_eq_true]
      · show (g.bridges.map (fun br => ({ br with activated := false } : BridgeRT))).map
            (applyActivations (activeBridgeIds (pressButtons (clearActivations g)))) = _
        rw [List.map_map]
        rfl
      · rfl
      · rfl
      · simp [pressButtons, List.map_map]
        rfl

theorem updateBridges_fields (g : GameState) :
    (updateBridges g).bridges = g.bridges.map
      (bridgeStep ((presentPlayers g).map (·.body)) (g.blocks.map (·.body))) ∧
    (updateBridges g).blocks = g.blocks ∧
    (updateBridges g).players = g.players ∧
    (updateBridges g).buttons = g.buttons := by
  cases hb : g.bridges with
  | nil =>
    have h : g.bridges.isEmpty = true := by rw [hb]; rfl
    refine ⟨?_, ?_, ?_, ?_⟩ <;>
      simp only [updateBridges, h, if_true] <;> simp [hb]
  | cons a l =>
    have h : g.bridges.isEmpty = false := by rw [hb]; rfl
    refine ⟨?_, ?_, ?_, ?_⟩ <;>
      simp only [updateBridges, h, Bool.false_eq_true, if_false] <;> simp [hb]

theorem buttonPressedNow_congr (g g' : GameState) (b b' : ButtonRT)
    (hp : g'.players = g.players) (hb : g'.blocks = g.blocks)
    (hbody : b'.body = b.body) :
    buttonPressedNow g' b' = buttonPressedNow g b := by
  simp [buttonPressedNow, presentPlayers, hp, hb, hbody]

theorem noPressedTarget_transfer (g g' : GameState) (id : ℚ)
    (hp : g'.players = g.players) (hb : g'.blocks = g.blocks)
    (hmap : g'.buttons.map (fun b => (b.bdef, b.body)) =
      g.buttons.map (fun b => (b.bdef, b.body)))
    (h : noPressedTarget g id) : noPressedTarget g' id := by
  intro btn2 hbtn2 htgt
  have hmem : (btn2.bdef, btn2.body) ∈
      g.buttons.map (fun b => (b.bdef, b.body)) := by
    rw [← hmap]
    exact List.mem_map_of_mem _ hbtn2
  rcases List.mem_map.mp hmem with ⟨b, hbmem, hpair⟩
  have hbd : b.bdef = btn2.bdef := congrArg Prod.fst hpair
  have hbody : btn2.body = b.body := (congrArg Prod.snd hpair).symm
  rw [buttonPressedNow_congr g g' b btn2 hp hb hbody]
  exact h b hbmem (hbd ▸ htgt)

/-- One tick of retreat of an unobstructed inactive bridge sitting at axis
offset `t`: hold inside the snap epsilon, otherwise step `min 2 t` toward
home. -/
def bridgeRetreat (t : ℚ) : ℚ := if t < 1/1000 then t else t - min 2 t

theorem axisNorm_scale (dx dy u : ℚ) (hunit : |dx| + |dy| = 1) :
    axisNorm (dx * u) (dy * u) = |u| := by
  simp only [axisNorm, abs_mul]
  rw [← add_mul, hunit, one_mul]

theorem bridgeObstructed_nil (b : Body) (mx my : ℚ) :
    bridgeObstructed [] b mx my = false := rfl

theorem bridgeStep_inactive (pb : List Body) (br : BridgeRT) (t : ℚ)
    (hreq : br.bdef.requiredPlayers = none)
    (hact : br.activated = false) (hlat : br.latched = false)
    (hpos : br.body.pos =
      ⟨br.home.x + br.bdef.dx * t, br.home.y + br.bdef.dy * t⟩)
    (hunit : |br.bdef.dx| + |br.bdef.dy| = 1) (ht : 0 ≤ t) :
    ∃ body' cx,
      bridgeStep pb [] br = { br with body := body', carryX := cx } ∧
      body'.pos = ⟨br.home.x + br.bdef.dx * bridgeRetreat t,
                   br.home.y + br.bdef.dy * bridgeRetreat t⟩ := by
  have hdist : axisNorm (br.home.x - (br.home.x + br.bdef.dx * t))
      (br.home.y - (br.home.y + br.bdef.dy * t)) = t := by
    have e1 : br.home.x - (br.home.x + br.bdef.dx * t) = br.bdef.dx * (-t) := by
      ring
    have e2 : br.home.y - (br.home.y + br.bdef.dy * t) = br.bdef.dy * (-t) := by
      ring
    rw [e1, e2, axisNorm_scale _ _ _ hunit, abs_neg, abs_of_nonneg ht]
  simp only [bridgeStep, hreq, hact, hlat, Bool.or_self, Bool.false_or,
    Bool.false_eq_true, if_false, hpos, hdist, bridgeObstructed_nil]
  by_cases hsmall : t < 1/1000
  · rw [if_pos hsmall]
    refine ⟨_, _, rfl, ?_⟩
    rw [bridgeRetreat, if_pos hsmall]
  · rw [if_neg hsmall]
    have ht0 : t ≠ 0 := by
      intro h0
      exact hsmall (by rw [h0]; norm_num)
    refine ⟨_, _, rfl, ?_⟩
    rw [bridgeRetreat, if_neg hsmall]
    have e1 : br.home.x + br.bdef.dx * t +
        (br.home.x - (br.home.x + br.bdef.dx * t)) / t * min 2 t =
        br.home.x + br.bdef.dx * (t - min 2 t) := by
      field_simp
      ring
    have e2 : br.home.y + br.bdef.dy * t +
        (br.home.y - (br.home.y + br.bdef.dy * t)) / t * min 2 t =
        br.home.y + br.bdef.dy * (t - min 2 t) := by
      field_simp
      ring
    rw [e1, e2]

theorem bridgeStep_inactive_step (pb bb : List Body) (br : BridgeRT) (t : ℚ)
    (hreq : br.bdef.requiredPlayers = none)
    (hact : br.activated = false) (hlat : br.latched = false)
    (hpos : br.body.pos =
      ⟨br.home.x + br.bdef.dx * t, br.home.y + br.bdef.dy * t⟩)
    (hunit : |br.bdef.dx| + |br.bdef.dy| = 1) (ht : 0 ≤ t) :
    ∃ body2 cx s,
      bridgeStep pb bb br = { br with body := body2, carryX := cx } ∧
      body2.pos = ⟨br.home.x + br.bdef.dx * s, br.home.y + br.bdef.dy * s⟩ ∧
      0 ≤ s ∧ s ≤ t ∧
      s = (if t < 1/1000 then t
           else if bridgeObstructed bb br.body (br.bdef.dx * (-(min 2 t)))
               (br.bdef.dy * (-(min 2 t))) = true then t
           else t - min 2 t) := by
  have hdist : axisNorm (br.home.x - (br.home.x + br.bdef.dx * t))
      (br.home.y - (br.home.y + br.bdef.dy * t)) = t := by
    have e1 : br.home.x - (br.home.x + br.bdef.dx * t) = br.bdef.dx * (-t) := by
      ring
    have e2 : br.home.y - (br.home.y + br.bdef.dy * t) = br.bdef.dy * (-t) := by
      ring
    rw [e1, e2, axisNorm_scale _ _ _ hunit, abs_neg, abs_of_nonneg ht]
  simp only [bridgeStep, hreq, hact, hlat, Bool.or_self, Bool.false_or,
    Bool.false_eq_true, if_false, hpos, hdist]
  by_cases hsmall : t < 1/1000
  · rw [if_pos hsmall]
    refine ⟨_, _, t, rfl, ?_, ht, le_refl t, (if_pos hsmall).symm⟩
    rfl
  · rw [if_neg hsmall]
    have ht0 : t ≠ 0 := by
      intro h0
      exact hsmall (by rw [h0]; norm_num)
    have emx : (br.home.x - (br.home.x + br.bdef.dx * t)) / t * min 2 t =
        br.bdef.dx * (-(min 2 t)) := by
      field_simp
      ring
    have emy : (br.home.y - (br.home.y + br.bdef.dy * t)) / t * min 2 t =
        br.bdef.dy * (-(min 2 t)) := by
      field_simp
      ring
    rw [emx, emy]
    by_cases hobs : bridgeObstructed bb br.body (br.bdef.dx * (-(min 2 t)))
        (br.bdef.dy * (-(min 2 t))) = true
    · rw [if_pos hobs]
      refine ⟨_, _, t, rfl, ?_, ht, le_refl t,
        ((if_neg hsmall).trans (if_pos hobs)).symm⟩
      rfl
    · rw [if_neg hobs]
      have hmn : (0 : ℚ) ≤ min 2 t := le_min (by norm_num) ht
      have hmt : min 2 t ≤ t := min_le_right 2 t
      refine ⟨_, _, t - min 2 t, rfl, ?_, by linarith, by linarith,
        ((if_neg hsmall).trans (if_neg hobs)).symm⟩
      simp only [PointQ.mk.injEq]
      constructor <;> ring

theorem bridgeStep_latched_step (pb bb : List Body) (br : BridgeRT) (t : ℚ)
    (hlat : br.latched = true)
    (hpos : br.body.pos =
      ⟨br.home.x + br.bdef.dx * t, br.home.y + br.bdef.dy * t⟩)
    (hunit : |br.bdef.dx| + |br.bdef.dy| = 1) (htd : t ≤ br.bdef.distance) :
    ∃ body2 cx s,
      bridgeStep pb bb br = { br with body := body2, carryX := cx } ∧
      body2.pos = ⟨br.home.x + br.bdef.dx * s, br.home.y + br.bdef.dy * s⟩ ∧
      t ≤ s ∧ s ≤ br.bdef.distance ∧
      s = (if br.bdef.distance - t < 1/1000 then t
           else if bridgeObstructed bb br.body
               (br.bdef.dx * min 2 (br.bdef.distance - t))
               (br.bdef.dy * min 2 (br.bdef.distance - t)) = true then t
           else t + min 2 (br.bdef.distance - t)) := by
  have hdist : axisNorm
      (br.home.x + br.bdef.dx * br.bdef.distance - (br.home.x + br.bdef.dx * t))
      (br.home.y + br.bdef.dy * br.bdef.distance - (br.home.y + br.bdef.dy * t)) =
      br.bdef.distance - t := by
    have e1 : br.home.x + br.bdef.dx * br.bdef.distance -
        (br.home.x + br.bdef.dx * t) = br.bdef.dx * (br.bdef.distance - t) := by
      ring
    have e2 : br.home.y + br.bdef.dy * br.bdef.distance -
        (br.home.y + br.bdef.dy * t) = br.bdef.dy * (br.bdef.distance - t) := by
      ring
    rw [e1, e2, axisNorm_scale _ _ _ hunit,
      abs_of_nonneg (by linarith : (0:ℚ) ≤ br.bdef.distance - t)]
  simp only [bridgeStep, hlat, Bool.or_true, Bool.true_or, if_true, hpos, hdist]
  by_cases hsmall : br.bdef.distance - t < 1/1000
  · rw [if_pos hsmall]
    refine ⟨_, _, t, rfl, ?_, le_refl t, htd, (if_pos hsmall).symm⟩
    rfl
  · rw [if_neg hsmall]
    have ht0 : br.bdef.distance - t ≠ 0 := by
      intro h0
      exact hsmall (by rw [h0]; norm_num)
    have emx : (br.home.x + br.bdef.dx * br.bdef.distance -
        (br.home.x + br.bdef.dx * t)) / (br.bdef.distance - t) *
        min 2 (br.bdef.distance - t) =
        br.bdef.dx * min 2 (br.bdef.distance - t) := by
      field_simp
      ring
    have emy : (br.home.y + br.bdef.dy * br.bdef.distance -
        (br.home.y + br.bdef.dy * t)) / (br.bdef.distance - t) *
        min 2 (br.bdef.distance - t) =
        br.bdef.dy * min 2 (br.bdef.distance - t) := by
      field_simp
      ring
    rw [emx, emy]
    by_cases hobs : bridgeObstructed bb br.body
        (br.bdef.dx * min 2 (br.bdef.distance - t))
        (br.bdef.dy * min 2 (br.bdef.distance - t)) = true
    · rw [if_pos hobs]
      refine ⟨_, _, t, rfl, ?_, le_refl t, htd,
        ((if_neg hsmall).trans (if_pos hobs)).symm⟩
      rfl
    · rw [if_neg hobs]
      have hmn : (0 : ℚ) ≤ min 2 (br.bdef.distance - t) :=
        le_min (by norm_num) (by linarith)
      have hmt : min 2 (br.bdef.distance - t) ≤ br.bdef.distance - t :=
        min_le_right _ _
      refine ⟨_, _, t + min 2 (br.bdef.distance - t), rfl, ?_, by linarith,
        by linarith, ((if_neg hsmall).trans (if_neg hobs)).symm⟩
      simp only [PointQ.mk.injEq]
      constructor <;> ring

theorem bridgeRetreat_nonneg (t : ℚ) (ht : 0 ≤ t) : 0 ≤ bridgeRetreat t := by
  unfold bridgeRetreat
  split
  · exact ht
  · have := min_le_right (2 : ℚ) t
    linarith

theorem bridgeRetreat_iter_nonneg (n : ℕ) (t : ℚ) (ht : 0 ≤ t) :
    0 ≤ bridgeRetreat^[n] t := by
  induction n generalizing t with
  | zero => simpa using ht
  | succ n ih =>
    rw [Function.iterate_succ_apply]
    exact ih _ (bridgeRetreat_nonneg t ht)

theorem bridgeRetreat_iter_small (n : ℕ) (t : ℚ) (ht : 0 ≤ t)
    (hle : t < 1/1000 ∨ t ≤ 2 * n) : bridgeRetreat^[n] t < 1/1000 := by
  induction n generalizing t with
  | zero =>
    rcases hle with h | h
    · simpa using h
    · norm_num at h
      have h0 : t = 0 := le_antisymm h ht
      rw [Function.iterate_zero_apply, h0]
      norm_num
  | succ n ih =>
    rw [Function.iterate_succ_apply]
    by_cases hsmall : t < 1/1000
    · have he : bridgeRetreat t = t := by
        unfold bridgeRetreat
        rw [if_pos hsmall]
      rw [he]
      exact ih t ht (Or.inl hsmall)
    · have he : bridgeRetreat t = t - min 2 t := by
        unfold bridgeRetreat
        rw [if_neg hsmall]
      rw [he]
      rcases hle with h | h
      · exact absurd h hsmall
      · apply ih
        · have := min_le_right (2 : ℚ) t
          linarith
        · right
          rcases le_total t 2 with h2 | h2
          · rw [min_eq_right h2]
            have : (0 : ℚ) ≤ 2 * n := by positivity
            linarith
          · rw [min_eq_left h2]
            push_cast at h ⊢
            linarith

theorem inactive_elem (g : GameState) (ids : List ℚ)
    (hsound : ∀ id ∈ ids, ∃ btn ∈ g.buttons, buttonPressedNow g btn = true ∧
      btn.bdef.targetBridgeId = some id)
    (br : BridgeRT) (t : ℚ)
    (hreq : br.bdef.requiredPlayers = none) (hlat : br.latched = false)
    (hnp : noPressedTarget g br.bdef.id)
    (hpos : br.body.pos =
      ⟨br.home.x + br.bdef.dx * t, br.home.y + br.bdef.dy * t⟩)
    (hunit : |br.bdef.dx| + |br.bdef.dy| = 1) (ht : 0 ≤ t) (brs : BridgeRT)
    (hbrs : brs = bridgeStep ((presentPlayers g).map (·.body))
      (g.blocks.map (·.body))
      { br with activated := decide (br.bdef.id ∈ ids),
                latched := br.latched ||
                  (decide (br.bdef.id ∈ ids) && br.bdef.permanent) }) :
    brs.bdef = br.bdef ∧ brs.home = br.home ∧ brs.latched = false ∧
    ∃ s : ℚ,
      brs.body.pos = ⟨br.home.x + br.bdef.dx * s, br.home.y + br.bdef.dy * s⟩ ∧
      0 ≤ s ∧ s ≤ t ∧
      s = (if t < 1/1000 then t
           else if bridgeObstructed (g.blocks.map (·.body)) br.body
               (br.bdef.dx * (-(min 2 t))) (br.bdef.dy * (-(min 2 t))) = true
           then t
           else t - min 2 t) := by
  subst hbrs
  have hni : br.bdef.id ∉ ids := by
    intro hmemid
    rcases hsound _ hmemid with ⟨btn, hb, hpress, htg⟩
    rw [hnp btn hb htg] at hpress
    exact absurd hpress (by simp)
  have hdec : decide (br.bdef.id ∈ ids) = false := decide_eq_false hni
  rw [hdec]
  obtain ⟨body2, cx, s, hstep, hposq, hs0, hst, hseq⟩ :=
    bridgeStep_inactive_step ((presentPlayers g).map (·.body))
      (g.blocks.map (·.body))
      { br with activated := false,
                latched := br.latched || (false && br.bdef.permanent) } t
      hreq rfl (by simp [hlat]) hpos hunit ht
  rw [hstep]
  exact ⟨rfl, rfl, by simp [hlat], s, hposq, hs0, hst, hseq⟩

theorem latched_elem (g : GameState) (ids : List ℚ) (br : BridgeRT) (t : ℚ)
    (hlat : br.latched = true)
    (hpos : br.body.pos =
      ⟨br.home.x + br.bdef.dx * t, br.home.y + br.bdef.dy * t⟩)
    (hunit : |br.bdef.dx| + |br.bdef.dy| = 1) (htd : t ≤ br.bdef.distance)
    (brs : BridgeRT)
    (hbrs : brs = bridgeStep ((presentPlayers g).map (·.body))
      (g.blocks.map (·.body))
      { br with activated := decide (br.bdef.id ∈ ids),
                latched := br.latched ||
                  (decide (br.bdef.id ∈ ids) && br.bdef.permanent) }) :
    brs.bdef = br.bdef ∧ brs.home = br.home ∧ brs.latched = true ∧
    ∃ s : ℚ,
      brs.body.pos = ⟨br.home.x + br.bdef.dx * s, br.home.y + br.bdef.dy * s⟩ ∧
      t ≤ s ∧ s ≤ br.bdef.distance ∧
      s = (if br.bdef.distance - t < 1/1000 then t
           else if bridgeObstructed (g.blocks.map (·.body)) br.body
               (br.bdef.dx * min 2 (br.bdef.distance - t))
               (br.bdef.dy * min 2 (br.bdef.distance - t)) = true then t
           else t + min 2 (br.bdef.distance - t)) := by
  subst hbrs
  obtain ⟨body2, cx, s, hstep, hposq, hts, hsd, hseq⟩ :=
    bridgeStep_latched_step ((presentPlayers g).map (·.body))
      (g.blocks.map (·.body))
      { br with activated := decide (br.bdef.id ∈ ids),
                latched := br.latched ||
                  (decide (br.bdef.id ∈ ids) && br.bdef.permanent) } t
      (by simp [hlat]) hpos hunit htd
  rw [hstep]
  refine ⟨rfl, rfl, ?_, s, hposq, hts, hsd, hseq⟩
  simp [hlat]

theorem inactive_tick_dichotomy (g : GameState) :
    ∃ F : BridgeRT → BridgeRT,
      (tickBridges g).bridges = g.bridges.map F ∧
      ∀ br ∈ g.bridges, ∀ t : ℚ,
        br.bdef.requiredPlayers = none → br.latched = false →
        noPressedTarget g br.bdef.id →
        br.body.pos =
          ⟨br.home.x + br.bdef.dx * t, br.home.y + br.bdef.dy * t⟩ →
        |br.bdef.dx| + |br.bdef.dy| = 1 → 0 ≤ t →
        (F br).bdef = br.bdef ∧ (F br).home = br.home ∧
        (F br).latched = false ∧
        ∃ s : ℚ,
          (F br).body.pos =
            ⟨br.home.x + br.bdef.dx * s, br.home.y + br.bdef.dy * s⟩ ∧
          0 ≤ s ∧ s ≤ t ∧
          s = (if t < 1/1000 then t
               else if bridgeObstructed (g.blocks.map (·.body)) br.body
                   (br.bdef.dx * (-(min 2 t)))
                   (br.bdef.dy * (-(min 2 t))) = true
               then t
               else t - min 2 t) := by
  obtain ⟨ids, hsound, hbmap, hblk, hply, hbtn⟩ := updateButtons_fields g
  obtain ⟨hbg, hbl2, hpl2, hbt2⟩ := updateBridges_fields (updateButtons g)
  have hpp : presentPlayers (updateButtons g) = presentPlayers g := by
    simp only [presentPlayers, hply]
  have hmap : (tickBridges g).bridges = g.bridges.map (fun br =>
      bridgeStep ((presentPlayers g).map (·.body)) (g.blocks.map (·.body))
        { br with activated := decide (br.bdef.id ∈ ids),
                  latched := br.latched ||
                    (decide (br.bdef.id ∈ ids) && br.bdef.permanent) }) := by
    show (updateBridges (updateButtons g)).bridges = _
    rw [hbg, hbmap, hpp, hblk, List.map_map]
    rfl
  exact ⟨_, hmap, fun br hmem t h1 h2 h3 h4 h5 h6 =>
    inactive_elem g ids hsound br t h1 h2 h3 h4 h5 h6 _ rfl⟩

theorem latch_origin (g : GameState) :
    ∃ F : BridgeRT → BridgeRT,
      (updateButtons g).bridges = g.bridges.map F ∧
      ∀ br ∈ g.bridges, br.latched = false → (F br).latched = true →
        ∃ btn ∈ g.buttons, buttonPressedNow g btn = true ∧
          btn.bdef.targetBridgeId = some br.bdef.id := by
  obtain ⟨ids, hsound, hbmap, -, -, -⟩ := updateButtons_fields g
  refine ⟨_, hbmap, ?_⟩
  intro br hmem hlat hFlat
  have hFlat2 : (br.latched ||
      (decide (br.bdef.id ∈ ids) && br.bdef.permanent)) = true := hFlat
  rw [hlat, Bool.false_or, Bool.and_eq_true] at hFlat2
  exact hsound _ (of_decide_eq_true hFlat2.1)

theorem latched_tick_advance (g : GameState) :
    ∃ F : BridgeRT → BridgeRT,
      (tickBridges g).bridges = g.bridges.map F ∧
      ∀ br ∈ g.bridges, ∀ t : ℚ,
        br.latched = true →
        br.body.pos =
          ⟨br.home.x + br.bdef.dx * t, br.home.y + br.bdef.dy * t⟩ →
        |br.bdef.dx| + |br.bdef.dy| = 1 → t ≤ br.bdef.distance →
        (F br).bdef = br.bdef ∧ (F br).home = br.home ∧
        (F br).latched = true ∧
        ∃ s : ℚ,
          (F br).body.pos =
            ⟨br.home.x + br.bdef.dx * s, br.home.y + br.bdef.dy * s⟩ ∧
          t ≤ s ∧ s ≤ br.bdef.distance ∧
          s = (if br.bdef.distance - t < 1/1000 then t
               else if bridgeObstructed (g.blocks.map (·.body)) br.body
                   (br.bdef.dx * min 2 (br.bdef.distance - t))
                   (br.bdef.dy * min 2 (br.bdef.distance - t)) = true then t
               else t + min 2 (br.bdef.distance - t)) := by
  obtain ⟨ids, hsound, hbmap, hblk, hply, hbtn⟩ := updateButtons_fields g
  obtain ⟨hbg, hbl2, hpl2, hbt2⟩ := updateBridges_fields (updateButtons g)
  have hpp : presentPlayers (updateButtons g) = presentPlayers g := by
    simp only [presentPlayers, hply]
  have hmap : (tickBridges g).bridges = g.bridges.map (fun br =>
      bridgeStep ((presentPlayers g).map (·.body)) (g.blocks.map (·.body))
        { br with activated := decide (br.bdef.id ∈ ids),
                  latched := br.latched ||
                    (decide (br.bdef.id ∈ ids) && br.bdef.permanent) }) := by
    show (updateBridges (updateButtons g)).bridges = _
    rw [hbg, hbmap, hpp, hblk, List.map_map]
    rfl
  exact ⟨_, hmap, fun br hmem t h1 h2 h3 h4 =>
    latched_elem g ids br t h1 h2 h3 h4 _ rfl⟩

theorem tickBridges_retreat_elem (g : GameState) (br : BridgeRT) (i : ℕ)
    (t : ℚ) (hbr : g.bridges[i]? = some br) (hblocks : g.blocks = [])
    (hreq : br.bdef.requiredPlayers = none) (hlat : br.latched = false)
    (hnp : noPressedTarget g br.bdef.id)
    (hpos : br.body.pos =
      ⟨br.home.x + br.bdef.dx * t, br.home.y + br.bdef.dy * t⟩)
    (hunit : |br.bdef.dx| + |br.bdef.dy| = 1) (ht : 0 ≤ t) :
    ∃ brn : BridgeRT,
      (tickBridges g).bridges[i]? = some brn ∧
      (tickBridges g).blocks = [] ∧
      (tickBridges g).players = g.players ∧
      (tickBridges g).buttons.map (fun b => (b.bdef, b.body)) =
        g.buttons.map (fun b => (b.bdef, b.body)) ∧
      brn.bdef = br.bdef ∧ brn.home = br.home ∧ brn.latched = false ∧
      brn.body.pos = ⟨br.home.x + br.bdef.dx * bridgeRetreat t,
                      br.home.y + br.bdef.dy * bridgeRetreat t⟩ := by
  obtain ⟨ids, hsound, hbmap, hblk, hply, hbtn⟩ := updateButtons_fields g
  obtain ⟨hbg, hbl2, hpl2, hbt2⟩ := updateBridges_fields (updateButtons g)
  have hpp : presentPlayers (updateButtons g) = presentPlayers g := by
    simp only [presentPlayers, hply]
  have hni : br.bdef.id ∉ ids := by
    intro hmemid
    rcases hsound _ hmemid with ⟨btn, hb, hpress, htg⟩
    rw [hnp btn hb htg] at hpress
    exact absurd hpress (by simp)
  have hdec : decide (br.bdef.id ∈ ids) = false := decide_eq_false hni
  have hmap : (tickBridges g).bridges = g.bridges.map (fun b =>
      bridgeStep ((presentPlayers g).map (·.body)) []
        { b with activated := decide (b.bdef.id ∈ ids),
                 latched := b.latched ||
                   (decide (b.bdef.id ∈ ids) && b.bdef.permanent) }) := by
    show (updateBridges (updateButtons g)).bridges = _
    rw [hbg, hbmap, hpp, hblk, hblocks, List.map_map]
    rfl
  have helem : (tickBridges g).bridges[i]? = some
      (bridgeStep ((presentPlayers g).map (·.body)) []
        { br with activated := decide (br.bdef.id ∈ ids),
                  latched := br.latched ||
                    (decide (br.bdef.id ∈ ids) && br.bdef.permanent) }) := by
    rw [hmap, List.getElem?_map, hbr]
    rfl
  obtain ⟨body2, cx, hstep, hposq⟩ :=
    bridgeStep_inactive ((presentPlayers g).map (·.body))
      { br with activated := false,
                latched := br.latched || (false && br.bdef.permanent) } t
      hreq rfl (by simp [hlat]) hpos hunit ht
  refine ⟨{ br with activated := false, latched := br.latched || (false && br.bdef.permanent), body := body2, carryX := cx }, ?_, ?_, ?_, ?_, rfl, rfl, by simp [hlat], hposq⟩
  · rw [helem, hdec, hstep]
  · show (updateBridges (updateButtons g)).blocks = _
    rw [hbl2, hblk, hblocks]
  · show (updateBridges (updateButtons g)).players = _
    rw [hpl2, hply]
  · show (updateBridges (updateButtons g)).buttons.map _ = _
    rw [hbt2]
    exact hbtn

theorem tickBridges_iter_retreat_elem (n : ℕ) (g : GameState) (br : BridgeRT)
    (i : ℕ) (t : ℚ) (hbr : g.bridges[i]? = some br) (hblocks : g.blocks = [])
    (hreq : br.bdef.requiredPlayers = none) (hlat : br.latched = false)
    (hnp : noPressedTarget g br.bdef.id)
    (hpos : br.body.pos =
      ⟨br.home.x + br.bdef.dx * t, br.home.y + br.bdef.dy * t⟩)
    (hunit : |br.bdef.dx| + |br.bdef.dy| = 1) (ht : 0 ≤ t) :
    ∃ brn : BridgeRT,
      (tickBridges^[n] g).bridges[i]? = some brn ∧
      brn.home = br.home ∧ brn.bdef = br.bdef ∧
      brn.body.pos = ⟨br.home.x + br.bdef.dx * bridgeRetreat^[n] t,
                      br.home.y + br.bdef.dy * bridgeRetreat^[n] t⟩ := by
  induction n generalizing g br t with
  | zero =>
    refine ⟨br, ?_, rfl, rfl, ?_⟩
    · simpa using hbr
    · simpa using hpos
  | succ n ih =>
    obtain ⟨br1, h1, h2, h3, h4, hbd, hhm, hlt, hps⟩ :=
      tickBridges_retreat_elem g br i t hbr hblocks hreq hlat hnp hpos hunit ht
    have hnp1 : noPressedTarget (tickBridges g) br1.bdef.id := by
      rw [hbd]
      exact noPressedTarget_transfer g (tickBridges g) _ h3
        (h2.trans hblocks.symm) h4 hnp
    obtain ⟨brn, hA, hB, hC, hD⟩ := ih (tickBridges g) br1 (bridgeRetreat t)
      h1 h2 (by rw [hbd]; exact hreq) hlt hnp1
      (by rw [hhm, hbd]; exact hps) (by rw [hbd]; exact hunit)
      (bridgeRetreat_nonneg t ht)
    refine ⟨brn, ?_, hB.trans hhm, hC.trans hbd, ?_⟩
    · rw [Function.iterate_succ_apply]
      exact hA
    · rw [Function.iterate_succ_apply, ← hhm, ← hbd]
      exact hD

theorem retreat_home_elem (g : GameState) (br : BridgeRT) (i : ℕ) (t : ℚ)
    (n : ℕ) (hbr : g.bridges[i]? = some br) (hblocks : g.blocks = [])
    (hreq : br.bdef.requiredPlayers = none) (hlat : br.latched = false)
    (hnp : noPressedTarget g br.bdef.id)
    (hpos : br.body.pos =
      ⟨br.home.x + br.bdef.dx * t, br.home.y + br.bdef.dy * t⟩)
    (hunit : |br.bdef.dx| + |br.bdef.dy| = 1) (ht : 0 ≤ t)
    (hle : t < 1/1000 ∨ t ≤ 2 * n) :
    ∃ brn : BridgeRT,
      (tickBridges^[n] g).bridges[i]? = some brn ∧ brn.home = br.home ∧
      |brn.body.pos.x - brn.home.x| + |brn.body.pos.y - brn.home.y| <
        1/1000 := by
  obtain ⟨brn, hbg, hhm, hbd, hps⟩ :=
    tickBridges_iter_retreat_elem n g br i t hbr hblocks hreq hlat hnp hpos
      hunit ht
  have hsmall := bridgeRetreat_iter_small n t ht hle
  have hnn := bridgeRetreat_iter_nonneg n t ht
  have hx : brn.body.pos.x = br.home.x + br.bdef.dx * bridgeRetreat^[n] t := by
    rw [hps]
  have hy : brn.body.pos.y = br.home.y + br.bdef.dy * bridgeRetreat^[n] t := by
    rw [hps]
  refine ⟨brn, hbg, hhm, ?_⟩
  rw [hx, hy, hhm]
  have e1 : br.home.x + br.bdef.dx * bridgeRetreat^[n] t - br.home.x =
      br.bdef.dx * bridgeRetreat^[n] t := by ring
  have e2 : br.home.y + br.bdef.dy * bridgeRetreat^[n] t - br.home.y =
      br.bdef.dy * bridgeRetreat^[n] t := by ring
  rw [e1, e2]
  have hax : |br.bdef.dx * bridgeRetreat^[n] t| +
      |br.bdef.dy * bridgeRetreat^[n] t| = |bridgeRetreat^[n] t| :=
    axisNorm_scale _ _ _ hunit
  rw [hax, abs_of_nonneg hnn]
  exact hsmall

theorem resetOnDeath_bridges (g : GameState) :
    ∀ br' ∈ (resetOnDeath g).bridges,
      br'.latched = false ∧ br'.activated = false ∧ br'.carryX = 0 ∧
      br'.body.pos = br'.home := by
  intro br' h
  simp only [resetOnDeath] at h
  rcases List.mem_map.mp h with ⟨br, -, rfl⟩
  exact ⟨rfl, rfl, rfl, rfl⟩

/-- The counterexample bridge for C3: permanent, with a weight rule of one
player, sitting at home. -/
def c3Bridge : BridgeRT :=
  { bdef := { x := 200, y := 200, w := 100, h := 20, id := 9,
              dx := 1, dy := 0, distance := 100, permanent := true,
              requiredPlayers := some 1 },
    body := staticRectBody ⟨200, 200, 100, 20⟩,
    activated := false, latched := false,
    home := ⟨250, 210⟩, carryX := 0 }

/-- The counterexample state for C3: the permanent bridge with one player
standing on it (weight activation) and no buttons at all. -/
def c3State : GameState :=
  { sampleState with
    bridges := [c3Bridge]
    players := fun s =>
      if s.val = 0 then
        some { body := { pos := ⟨250, 180⟩, vel := ⟨0, 0⟩, isStatic := false,
                         w := 40, h := 40 },
               moveAxisX := 0 }
      else none }

/-- C3, divergence: a `permanent` bridge activated by its weight rule
(`requiredPlayers`) moves out on that tick (so it was treated as active) but
is NOT latched — the latch is only ever set in `updateButtons` for pressed
buttons — and after the player leaves, one further tick returns it exactly
to `homeCenter`, contradicting "once it has been activated on any tick it is
latched … it never returns to homeCenter after deactivation". -/
theorem C3_counterexample :
    ((tickBridges c3State).bridges.map
        (fun br => (br.latched, br.body.pos)) = [(false, ⟨252, 210⟩)]) ∧
    c3Bridge.bdef.permanent = true ∧
    c3Bridge.body.pos = c3Bridge.home ∧
    bridgeDistHome
      (tickBridges { tickBridges c3State with players := fun _ => none }) = 0 := by
  refine ⟨by with_unfolding_all rfl, rfl, by with_unfolding_all rfl,
    by with_unfolding_all rfl⟩

/-- C3, amended: (1) on every tick, in any level, every bridge with no
weight rule, not latched and with no pressed button targeting it either
holds its position — exactly when it is already within the `1/1000` epsilon
of `homeCenter` or a block obstructs the landing slice — or steps
`min 2 (remaining)` toward `homeCenter`, never away from it; (2) a bridge
becomes latched in `updateButtons` only when a pressed button targets it —
weight activation never latches; (3) once latched, a bridge stays latched
and is treated as active on every tick: its offset from home never
decreases, and it either holds (within epsilon of full extension, or
obstructed) or advances `min 2 (remaining)` toward full extension, staying
within its travel; (4) `resetOnDeath` clears latch, activation and carry and
returns every bridge to `homeCenter`; and (5) hence, in a level with no
blocks, any such inactive bridge is back within epsilon of `homeCenter`
after `n` ticks once `2·n` covers the start offset. -/
theorem C3_amended :
    (∀ g : GameState, ∃ F : BridgeRT → BridgeRT,
      (tickBridges g).bridges = g.bridges.map F ∧
      ∀ br ∈ g.bridges, ∀ t : ℚ,
        br.bdef.requiredPlayers = none → br.latched = false →
        noPressedTarget g br.bdef.id →
        br.body.pos =
          ⟨br.home.x + br.bdef.dx * t, br.home.y + br.bdef.dy * t⟩ →
        |br.bdef.dx| + |br.bdef.dy| = 1 → 0 ≤ t →
        (F br).bdef = br.bdef ∧ (F br).home = br.home ∧
        (F br).latched = false ∧
        ∃ s : ℚ,
          (F br).body.pos =
            ⟨br.home.x + br.bdef.dx * s, br.home.y + br.bdef.dy * s⟩ ∧
          0 ≤ s ∧ s ≤ t ∧
          s = (if t < 1/1000 then t
               else if bridgeObstructed (g.blocks.map (·.body)) br.body
                   (br.bdef.dx * (-(min 2 t)))
                   (br.bdef.dy * (-(min 2 t))) = true
               then t
               else t - min 2 t)) ∧
    (∀ g : GameState, ∃ F : BridgeRT → BridgeRT,
      (updateButtons g).bridges = g.bridges.map F ∧
      ∀ br ∈ g.bridges, br.latched = false → (F br).latched = true →
        ∃ btn ∈ g.buttons, buttonPressedNow g btn = true ∧
          btn.bdef.targetBridgeId = some br.bdef.id) ∧
    (∀ g : GameState, ∃ F : BridgeRT → BridgeRT,
      (tickBridges g).bridges = g.bridges.map F ∧
      ∀ br ∈ g.bridges, ∀ t : ℚ,
        br.latched = true →
        br.body.pos =
          ⟨br.home.x + br.bdef.dx * t, br.home.y + br.bdef.dy * t⟩ →
        |br.bdef.dx| + |br.bdef.dy| = 1 → t ≤ br.bdef.distance →
        (F br).bdef = br.bdef ∧ (F br).home = br.home ∧
        (F br).latched = true ∧
        ∃ s : ℚ,
          (F br).body.pos =
            ⟨br.home.x + br.bdef.dx * s, br.home.y + br.bdef.dy * s⟩ ∧
          t ≤ s ∧ s ≤ br.bdef.distance ∧
          s = (if br.bdef.distance - t < 1/1000 then t
               else if bridgeObstructed (g.blocks.map (·.body)) br.body
                   (br.bdef.dx * min 2 (br.bdef.distance - t))
                   (br.bdef.dy * min 2 (br.bdef.distance - t)) = true then t
               else t + min 2 (br.bdef.distance - t))) ∧
    (∀ g : GameState, ∀ br' ∈ (resetOnDeath g).bridges,
      br'.latched = false ∧ br'.activated = false ∧ br'.carryX = 0 ∧
      br'.body.pos = br'.home) ∧
    (∀ (g : GameState) (br : BridgeRT) (i : ℕ) (t : ℚ) (n : ℕ),
      g.bridges[i]? = some br → g.blocks = [] →
      br.bdef.requiredPlayers = none → br.latched = false →
      noPressedTarget g br.bdef.id →
      br.body.pos =
        ⟨br.home.x + br.bdef.dx * t, br.home.y + br.bdef.dy * t⟩ →
      |br.bdef.dx| + |br.bdef.dy| = 1 → 0 ≤ t →
      (t < 1/1000 ∨ t ≤ 2 * n) →
      ∃ brn : BridgeRT,
        (tickBridges^[n] g).bridges[i]? = some brn ∧ brn.home = br.home ∧
        |brn.body.pos.x - brn.home.x| + |brn.body.pos.y - brn.home.y| <
          1/1000) :=
  ⟨inactive_tick_dichotomy, latch_origin, latched_tick_advance,
   resetOnDeath_bridges,
   fun g br i t n h1 h2 h3 h4 h5 h6 h7 h8 h9 =>
     retreat_home_elem g br i t n h1 h2 h3 h4 h5 h6 h7 h8 h9⟩

/-- The witness bridge for C3: no weight rule, not latched, displaced
4 pixels along its `+x` axis from home. -/
def c3HomeBridge : BridgeRT :=
  { bdef := { x := 200, y := 200, w := 100, h := 20, id := 7,
              dx := 1, dy := 0, distance := 100, permanent := false,
              requiredPlayers := none },
    body := { pos := ⟨254, 210⟩, vel := ⟨0, 0⟩, isStatic := true,
              w := 100, h := 20 },
    activated := false, latched := false,
    home := ⟨250, 210⟩, carryX := 0 }

/-- The witness state for C3: the displaced bridge alone, no buttons, no
blocks, no players. -/
def c3RetreatState : GameState := { sampleState with bridges := [c3HomeBridge] }

/-- Witness for C3: the displaced bridge returns to within epsilon of home
in two ticks (4 pixels at 2 per tick). -/
theorem C3_witness :
    ∃ brn : BridgeRT,
      (tickBridges^[2] c3RetreatState).bridges[0]? = some brn ∧
      brn.home = c3HomeBridge.home ∧
      |brn.body.pos.x - brn.home.x| + |brn.body.pos.y - brn.home.y| <
        1/1000 :=
  C3_amended.2.2.2.2 c3RetreatState c3HomeBridge 0 4 2
    (by with_unfolding_all rfl) rfl rfl rfl
    (fun btn h _ => absurd h (List.not_mem_nil btn))
    (by with_unfolding_all rfl) (by with_unfolding_all rfl)
    (of_decide_eq_true (by with_unfolding_all rfl))
    (Or.inr (of_decide_eq_true (by with_unfolding_all rfl)))

/-- A first concrete level in loader normal form (one floor platform). -/
def c6A : LevelState :=
  { config := ⟨960, 540⟩
    platforms := [⟨0, 500, 960, 40⟩]
    door := some ⟨860, 420, 40, 80⟩
    spawn := some ⟨80, 400⟩
    key := none
    blocks := []
    bridges := []
    buttons := []
    spikes := [] }

/-- The level after one mutating editor action: a second platform added. -/
def c6B : LevelState :=
  { c6A with platforms := [⟨0, 500, 960, 40⟩, ⟨200, 400, 100, 20⟩] }

/-- The game state holding level `c6A`. -/
def c6GA : GameState := applyLoad c6A sampleState

/-- The session at its baseline: `initGame` pushes the single snapshot. -/
def c6S0 : Session := initHistory c6GA

/-- The session after one mutating editor action (edit to `c6B`, then
`pushHistorySnapshot`). -/
def c6S1 : Session :=
  pushHistorySnapshot { c6S0 with game := applyLoad c6B c6S0.game }

/-- The session after the user then performs one undo. -/
def c6S2 : Session := (performUndo c6S1).2

/-- The snapshot pushed after erasing the door: `door` is null.  It is NOT
in loader normal form, and reloading it resurrects the default door. -/
def c6NoDoor : LevelState := { c6A with door := none }

/-- The game state right after the door has been erased. -/
def c6GDel : GameState := { c6GA with doorRect := none, doorBody := none }

/-- The session after the mutating action "erase the door" (edit, then
`pushHistorySnapshot`). -/
def c6SDel : Session := pushHistorySnapshot { c6S0 with game := c6GDel }

set_option maxRecDepth 40000 in
/-- C6, divergence: in a session where a mutating action occurred since the
baseline (so the claim applies) and the user has already undone it once,
`undo()` fails (baseline guard) while `redo()` replays the redo entry, so
`undo(); redo()` does not restore the pre-undo export: it moves the level
from `c6A` back to `c6B`. -/
theorem C6_counterexample :
    c6S1.undoStack = [c6B, c6A] ∧
    c6S2.undoStack = [c6A] ∧ c6S2.redoStack = [c6B] ∧
    (performUndo c6S2).1 = false ∧ (performRedo c6S2).1 = true ∧
    exportLevel (performRedo (performUndo c6S2).2).2.game ≠
      exportLevel c6S2.game := by
  refine ⟨by with_unfolding_all rfl, by with_unfolding_all rfl,
    by with_unfolding_all rfl, by with_unfolding_all rfl,
    by with_unfolding_all rfl, ?_⟩
  intro h
  have h1 : buildLevelState (performRedo (performUndo c6S2).2).2.game = c6B := by
    with_unfolding_all rfl
  have h2 : buildLevelState c6S2.game = c6A := by
    with_unfolding_all rfl
  rw [exportLevel, exportLevel, h1, h2] at h
  exact absurd (serializeLevelState_injective h)
    (of_decide_eq_true (by with_unfolding_all rfl))

set_option maxRecDepth 40000 in
/-- C6, amended: `undo(); redo()` restores the pre-undo export whenever the
top of the undo stack is the snapshot of the current level (exactly the
state immediately after a mutating action pushed its snapshot, with no
pending undo in between), at least one earlier snapshot lies below it, and
that snapshot is in loader normal form — in particular its door and spawn
are present.  The normal-form proviso is necessary: erasing the door is a
mutating action whose pushed snapshot has a null door, and reloading that
snapshot resurrects the default door (the `ensure*` load tail), so after
that action `undo(); redo()` does NOT restore the export — the second and
third conjuncts exhibit this on the concrete erase-the-door session. -/
theorem C6_amended_undo_redo :
    (∀ (s : Session) (L P : LevelState) (rest : List LevelState),
      s.undoStack = L :: P :: rest →
      buildLevelState s.game = L → levelNormal L = true →
      exportLevel (performRedo (performUndo s).2).2.game =
        exportLevel s.game) ∧
    (c6SDel.undoStack = [c6NoDoor, c6A] ∧
      (buildLevelState c6SDel.game).door = none ∧
      (buildLevelState
        (performRedo (performUndo c6SDel).2).2.game).door.isSome = true) ∧
    exportLevel (performRedo (performUndo c6SDel).2).2.game ≠
      exportLevel c6SDel.game := by
  refine ⟨?_, ⟨by with_unfolding_all rfl, by with_unfolding_all rfl,
    by with_unfolding_all rfl⟩, ?_⟩
  · intro s L P rest hstk htop hLn
    have hlen2 : ¬ (L :: P :: rest).length ≤ 1 := by
      simp
    have hU : (performUndo s).2 =
        { game := loadSnapshot P s.game, undoStack := P :: rest,
          redoStack := L :: s.redoStack } := by
      simp only [performUndo, hstk, hlen2, if_false]
    have hR : (performRedo (performUndo s).2).2.game =
        loadSnapshot L (loadSnapshot P s.game) := by
      rw [hU]
      rfl
    have hload : ∀ g : GameState, loadSnapshot L g = applyLoad L g := by
      intro g
      simp [loadSnapshot, loadLevelFromJson, parse_serialize g.levelConfig L hLn]
    rw [hR, hload, exportLevel, exportLevel, build_applyLoad L _ hLn, htop]
  · intro h
    have h1 : (buildLevelState
        (performRedo (performUndo c6SDel).2).2.game).door.isSome = true := by
      with_unfolding_all rfl
    have h2 : (buildLevelState c6SDel.game).door.isSome = false := by
      with_unfolding_all rfl
    rw [exportLevel, exportLevel] at h
    have h3 : (buildLevelState
        (performRedo (performUndo c6SDel).2).2.game).door.isSome =
        (buildLevelState c6SDel.game).door.isSome :=
      congrArg (fun l : LevelState => l.door.isSome)
        (serializeLevelState_injective h)
    rw [h1, h2] at h3
    exact Bool.noConfusion h3

set_option maxRecDepth 40000 in
/-- Witness for C6: immediately after the mutating action to `c6B`,
`undo(); redo()` restores the export. -/
theorem C6_witness :
    exportLevel (performRedo (performUndo c6S1).2).2.game =
      exportLevel c6S1.game :=
  C6_amended_undo_redo.1 c6S1 c6B c6A [] (by with_unfolding_all rfl)
    (by with_unfolding_all rfl) (by with_unfolding_all rfl)

end PicoJS
